import Mathlib

/-!
Verification of the per-channel session layer of a chat-to-agent bridge:
`terminal-manager.ts` (busy/queue state machine, output-stream scraping,
shell-escaped command construction) and `approval-server.ts` (pending
approval registry with timeout-as-deny and a session allowlist).
State is embedded shallowly: JS `Map`s become association lists, JS `Set`s
become duplicate-free lists, and externally observable effects (pty writes,
callback invocations, promise resolutions) are recorded in logs.
-/

/-- The left brace character, kept as a named constant. -/
def lbrace : Char := Char.ofNat 123

/-- The right brace character, kept as a named constant. -/
def rbrace : Char := Char.ofNat 125

/-- The backtick character, kept as a named constant. -/
def btick : Char := Char.ofNat 96

/-- Lookup in an association list (JS `Map.get`): first binding wins
(keys are unique by construction, mirroring `Map` semantics). -/
def alookup {α : Type} (k : String) : List (String × α) → Option α
  | [] => none
  | (k', v) :: rest => if k' = k then some v else alookup k rest

/-- JS `Map.set`: replace the binding in place if the key exists,
otherwise append at the end (insertion order is preserved). -/
def ainsert {α : Type} (k : String) (v : α) : List (String × α) → List (String × α)
  | [] => [(k, v)]
  | (k', v') :: rest => if k' = k then (k, v) :: rest else (k', v') :: ainsert k v rest

/-- JS `Map.delete`: remove the binding for the key. -/
def aerase {α : Type} (k : String) : List (String × α) → List (String × α)
  | [] => []
  | (k', v') :: rest => if k' = k then aerase k rest else (k', v') :: aerase k rest

/-- JS `Set.add`: add the element if not already present. -/
def setInsert (k : String) (l : List String) : List String :=
  if k ∈ l then l else l ++ [k]

/-- JS `Set.delete`: remove the element (all occurrences; the sets built
here are duplicate-free, so this matches `Set` semantics). -/
def setErase (k : String) (l : List String) : List String :=
  l.filter (fun x => x ≠ k)

/-- Replace every occurrence of the character `c` by the replacement
string `r`, as JS `String.prototype.replace` with a global
single-character pattern does. -/
def replaceChar (c : Char) (r : List Char) : List Char → List Char
  | [] => []
  | x :: xs => (if x = c then r else [x]) ++ replaceChar c r xs

/-- Shell escaping of the user payload from `sendInputNow`
(terminal-manager.ts lines 307-313): six sequential global replaces, in
the source's order — backslash doubled, then `"`, `$` and backtick
backslash-prefixed, then newlines replaced by a space and carriage
returns removed. -/
def escapeInput (s : List Char) : List Char :=
  replaceChar '\r' []
    (replaceChar '\n' [' ']
      (replaceChar btick ['\\', btick]
        (replaceChar '$' ['\\', '$']
          (replaceChar '"' ['\\', '"']
            (replaceChar '\\' ['\\', '\\'] s)))))

/-- Per-character escaping map as the spec describes the escaping:
backslash, double quote, dollar and backtick are each prefixed with a
backslash; a newline is stripped from the command by turning it into a
single space (keeping the command on one line); a carriage return is
removed. Used only to compare against `escapeInput`. -/
def escCharSpec (c : Char) : List Char :=
  if c = '\\' then ['\\', '\\']
  else if c = '"' then ['\\', '"']
  else if c = '$' then ['\\', '$']
  else if c = btick then ['\\', btick]
  else if c = '\n' then [' ']
  else if c = '\r' then []
  else [c]

/-- Character-by-character form of the spec's escaping. -/
def escapeSpec (s : List Char) : List Char :=
  s.flatMap escCharSpec

theorem replaceChar_append (c : Char) (r : List Char) (a b : List Char) :
    replaceChar c r (a ++ b) = replaceChar c r a ++ replaceChar c r b := by
  induction a with
  | nil => rfl
  | cons x xs ih => simp [replaceChar, ih]

theorem escapeInput_cons (c : Char) (s : List Char) :
    escapeInput (c :: s) = escCharSpec c ++ escapeInput s := by
  show escapeInput ([c] ++ s) = _
  simp only [escapeInput, replaceChar_append]
  congr 1
  by_cases h1 : c = '\\'
  · subst h1; rfl
  · by_cases h2 : c = '"'
    · subst h2; rfl
    · by_cases h3 : c = '$'
      · subst h3; rfl
      · by_cases h4 : c = btick
        · subst h4; rfl
        · by_cases h5 : c = '\n'
          · subst h5; rfl
          · by_cases h6 : c = '\r'
            · subst h6; rfl
            · simp [replaceChar, escCharSpec, h1, h2, h3, h4, h5, h6]

theorem escapeInput_eq_escapeSpec (s : List Char) :
    escapeInput s = escapeSpec s := by
  induction s with
  | nil => rfl
  | cons c cs ih => rw [escapeInput_cons, ih]; rfl

theorem newline_not_mem_escCharSpec (c : Char) : '\n' ∉ escCharSpec c := by
  unfold escCharSpec
  split
  · decide
  · split
    · decide
    · split
      · decide
      · split
        · decide
        · split
          · decide
          · split
            · decide
            · rename_i h5 _
              simp only [List.mem_singleton]
              intro h
              exact h5 h.symm

theorem cr_not_mem_escCharSpec (c : Char) : '\r' ∉ escCharSpec c := by
  unfold escCharSpec
  split
  · decide
  · split
    · decide
    · split
      · decide
      · split
        · decide
        · split
          · decide
          · split
            · decide
            · rename_i h6
              simp only [List.mem_singleton]
              intro h
              exact h6 h.symm

/-- C9: the literal command line shell-escapes the payload: the
sequential replaces of `sendInputNow` amount to escaping each backslash,
double quote, dollar sign and backtick with a backslash prefix, and
eliminating newlines (each becomes a single space) and carriage returns,
so the escaped payload contains no newline or carriage return — it is a
single line. -/
theorem claim9_escaping :
    ∀ s : List Char,
      escapeInput s = escapeSpec s ∧
      '\n' ∉ escapeInput s ∧ '\r' ∉ escapeInput s := by
  intro s
  refine ⟨escapeInput_eq_escapeSpec s, ?_, ?_⟩
  · rw [escapeInput_eq_escapeSpec]
    intro h
    rcases List.mem_flatMap.mp h with ⟨c, _, hc⟩
    exact newline_not_mem_escCharSpec c hc
  · rw [escapeInput_eq_escapeSpec]
    intro h
    rcases List.mem_flatMap.mp h with ⟨c, _, hc⟩
    exact cr_not_mem_escCharSpec c hc

/-! ### ANSI stripping and stream text scanning -/

/-- States of the small automaton that models the `strip-ansi` dependency:
outside a sequence, just after an escape byte, or inside a CSI sequence. -/
inductive AnsiMode where
  | normal
  | sawEsc
  | inCsi
deriving DecidableEq

/-- Worker for `stripAnsi`: drops `ESC [ … final-byte` control sequences
and the escape byte introducing them, copying everything else. -/
def stripAnsiGo : AnsiMode → List Char → List Char
  | _, [] => []
  | .normal, c :: rest =>
    if c = '\x1b' then stripAnsiGo .sawEsc rest else c :: stripAnsiGo .normal rest
  | .sawEsc, c :: rest =>
    if c = '[' then stripAnsiGo .inCsi rest else stripAnsiGo .normal rest
  | .inCsi, c :: rest =>
    if 0x40 ≤ c.toNat ∧ c.toNat ≤ 0x7e then stripAnsiGo .normal rest
    else stripAnsiGo .inCsi rest

/-- Model of the `strip-ansi` library applied to every arriving chunk:
removes ANSI CSI escape sequences and is the identity on text that
contains no escape byte. -/
def stripAnsi (s : List Char) : List Char :=
  stripAnsiGo .normal s

theorem stripAnsi_of_no_esc (s : List Char) (h : '\x1b' ∉ s) :
    stripAnsi s = s := by
  unfold stripAnsi
  induction s with
  | nil => rfl
  | cons c rest ih =>
    have hc : c ≠ '\x1b' := fun hc => h (hc ▸ List.mem_cons_self c rest)
    have hrest : '\x1b' ∉ rest := fun hm => h (List.mem_cons_of_mem c hm)
    simp [stripAnsiGo, hc, ih hrest]

/-- Whitespace class of JS regular expressions (`\s`), restricted to its
ASCII members, which are the only ones the scraped terminal output uses. -/
def jsWs (c : Char) : Bool :=
  c == ' ' || c == '\t' || c == '\n' || c == '\r' || c == '\x0b' || c == '\x0c'

/-- JS `String.prototype.trim` (ASCII whitespace). -/
def trimJs (s : List Char) : List Char :=
  ((s.dropWhile jsWs).reverse.dropWhile jsWs).reverse

/-- JS `String.prototype.split` on a single separator character. -/
def splitOnChar (sep : Char) : List Char → List (List Char)
  | [] => [[]]
  | c :: rest =>
    let r := splitOnChar sep rest
    if c = sep then [] :: r
    else
      match r with
      | h :: t => (c :: h) :: t
      | [] => [[c]]

/-- Suffix of `s` starting at the first occurrence of `pat`
(the view of JS `String.prototype.indexOf` used by the stream scraper). -/
def findSubSuffix (pat : List Char) : List Char → Option (List Char)
  | [] => if pat.isPrefixOf ([] : List Char) then some [] else none
  | c :: t => if pat.isPrefixOf (c :: t) then some (c :: t) else findSubSuffix pat t

/-- JS `String.prototype.includes`. -/
def containsSub (pat s : List Char) : Bool :=
  (findSubSuffix pat s).isSome

/-- Leftmost-match search: try the matcher at every start position from
the left, as a JS regex engine does. -/
def searchFrom {α : Type} (f : List Char → Option α) : List Char → Option α
  | [] => f []
  | c :: rest =>
    match f (c :: rest) with
    | some a => some a
    | none => searchFrom f rest

/-- All ways a greedy `p*` can split the input, longest take first —
the candidate order a backtracking JS regex engine explores. -/
def starSplits (p : Char → Bool) : List Char → List (List Char × List Char)
  | [] => [([], [])]
  | c :: rest =>
    if p c then
      ((starSplits p rest).map (fun x => (c :: x.1, x.2))) ++ [([], c :: rest)]
    else [([], c :: rest)]

/-- All ways a greedy `p+` can split the input, longest take first. -/
def plusSplits (p : Char → Bool) : List Char → List (List Char × List Char)
  | [] => []
  | c :: rest =>
    if p c then (starSplits p rest).map (fun x => (c :: x.1, x.2))
    else []

/-- All ways a greedy `p?` can split the input, taking the character
first when it matches. -/
def optSplits (p : Char → Bool) : List Char → List (List Char × List Char)
  | [] => [([], [])]
  | c :: rest =>
    if p c then [([c], rest), ([], c :: rest)] else [([], c :: rest)]

/-- The `[yYnN]` character class of the binary-prompt pattern. -/
def ynChar (c : Char) : Bool :=
  c == 'y' || c == 'Y' || c == 'n' || c == 'N'

/-- Backtracking match of the binary-prompt regular expression
of `detectPrompts` at the start of `s`, returning (whole match, title
capture): a run of non-newline characters ending in `?`, optional
whitespace, then a `( y / n )`-shaped pair with either bracket kind. -/
def binaryAt (s : List Char) : Option (List Char × List Char) :=
  (starSplits (fun c => !(c == '\n')) s).findSome? fun ar =>
    match ar.2 with
    | '?' :: r2 =>
      (starSplits jsWs r2).findSome? fun wr =>
        match wr.2 with
        | b1 :: y1 :: '/' :: y2 :: b2 :: _ =>
          if (b1 == '[' || b1 == '(') && ynChar y1 && ynChar y2 &&
              (b2 == ']' || b2 == ')') then
            some (ar.1 ++ '?' :: wr.1 ++ [b1, y1, '/', y2, b2], ar.1 ++ ['?'])
          else none
        | _ => none
    | _ => none

/-- Leftmost match of the binary-prompt pattern over the whole output. -/
def findBinary (s : List Char) : Option (List Char × List Char) :=
  searchFrom binaryAt s

/-- All backtracking matches of one numbered menu item
(`\s* [❯>]? \s* digits . \s* non-newline+ newline?`), preferred
candidates first. -/
def menuItemSplits (s : List Char) : List (List Char × List Char) :=
  (starSplits jsWs s).flatMap fun w1 =>
    (optSplits (fun c => c == '❯' || c == '>') w1.2).flatMap fun m =>
      (starSplits jsWs m.2).flatMap fun w2 =>
        (plusSplits Char.isDigit w2.2).flatMap fun d =>
          match d.2 with
          | '.' :: r5 =>
            (starSplits jsWs r5).flatMap fun w3 =>
              (plusSplits (fun c => !(c == '\n')) w3.2).flatMap fun t =>
                (optSplits (fun c => c == '\n') t.2).map fun nl =>
                  (w1.1 ++ m.1 ++ w2.1 ++ d.1 ++ '.' :: w3.1 ++ t.1 ++ nl.1, nl.2)
          | _ => []

/-- One-or-more repetition of menu items, more repetitions preferred,
with fuel bounding the recursion (each item consumes at least one
character, so input length suffices as fuel). -/
def repPlusItems : Nat → List Char → List (List Char × List Char)
  | 0, _ => []
  | fuel + 1, s =>
    (menuItemSplits s).flatMap fun c1 =>
      ((repPlusItems fuel c1.2).map fun c2 => (c1.1 ++ c2.1, c2.2)) ++ [c1]

/-- Backtracking match of the menu-prompt regular expression of
`detectPrompts` at the start of `s`, returning
(whole match, title capture, options-block capture). -/
def menuAt (fuel : Nat) (s : List Char) : Option (List Char × List Char × List Char) :=
  (plusSplits (fun c => !(c == '\n')) s).findSome? fun ar =>
    match ar.2 with
    | '?' :: r2 =>
      (starSplits jsWs r2).findSome? fun wr =>
        match wr.2 with
        | '\n' :: r4 =>
          (repPlusItems fuel r4).findSome? fun br =>
            some (ar.1 ++ '?' :: wr.1 ++ '\n' :: br.1, ar.1 ++ ['?'], br.1)
        | _ => none
    | _ => none

/-- Leftmost match of the menu-prompt pattern over the whole output. -/
def findMenu (s : List Char) : Option (List Char × List Char × List Char) :=
  searchFrom (menuAt (s.length + 1)) s

/-- The anchored prefix strip applied to each menu option line:
`^\s*[❯>]?\s*\d+\.\s*` is removed when it matches, otherwise the line is
returned unchanged. -/
def stripOptionMark (line : List Char) : List Char :=
  let r1 := line.dropWhile jsWs
  let r2 :=
    match r1 with
    | c :: t => if c == '❯' || c == '>' then t else r1
    | [] => r1
  let r3 := r2.dropWhile jsWs
  let d := r3.takeWhile Char.isDigit
  let r4 := r3.dropWhile Char.isDigit
  if d.isEmpty then line
  else
    match r4 with
    | '.' :: r5 => r5.dropWhile jsWs
    | _ => line

/-- Match of `"session_id"\s*:\s*"([^"]+)"` at the start of `s`,
returning the capture between the quotes. -/
def sessionIdAt (s : List Char) : Option (List Char) :=
  match ("\"session_id\"".data).isPrefixOf s with
  | false => none
  | true =>
    let r1 := (s.drop 12).dropWhile jsWs
    match r1 with
    | ':' :: r2 =>
      let r3 := r2.dropWhile jsWs
      match r3 with
      | '"' :: r4 =>
        let cap := r4.takeWhile (fun c => !(c == '"'))
        match r4.dropWhile (fun c => !(c == '"')) with
        | '"' :: _ => if cap.isEmpty then none else some cap
        | _ => none
      | _ => none
    | _ => none

/-- Leftmost `"session_id": "…"` capture over the output chunk. -/
def findSessionId (s : List Char) : Option (List Char) :=
  searchFrom sessionIdAt s

/-- Hexadecimal digit, either case (the UUID pattern is
case-insensitive). -/
def hexChar (c : Char) : Bool :=
  c.isDigit || ('a' ≤ c && c ≤ 'f') || ('A' ≤ c && c ≤ 'F')

/-- Check `n` hex characters followed by continuation `k`. -/
def hexRun : Nat → List Char → Option (List Char × List Char)
  | 0, s => some ([], s)
  | n + 1, c :: rest =>
    if hexChar c then (hexRun n rest).map fun x => (c :: x.1, x.2)
    else none
  | _ + 1, [] => none

/-- Match of the UUID shape `hhhhhhhh-hhhh-hhhh-hhhh-hhhhhhhhhhhh`
(case-insensitive) at the start of `s`, returning the 36 matched
characters. -/
def uuidAt (s : List Char) : Option (List Char) :=
  (hexRun 8 s).bind fun a =>
    match a.2 with
    | '-' :: r1 =>
      (hexRun 4 r1).bind fun b =>
        match b.2 with
        | '-' :: r2 =>
          (hexRun 4 r2).bind fun c =>
            match c.2 with
            | '-' :: r3 =>
              (hexRun 4 r3).bind fun d =>
                match d.2 with
                | '-' :: r4 =>
                  (hexRun 12 r4).map fun e =>
                    a.1 ++ '-' :: b.1 ++ '-' :: c.1 ++ '-' :: d.1 ++ '-' :: e.1
                | _ => none
            | _ => none
        | _ => none
    | _ => none

/-- Leftmost bare-UUID match over the output chunk (the fallback of the
resume-id capture). -/
def findUuid (s : List Char) : Option (List Char) :=
  searchFrom uuidAt s

/-- Lowercased copy of a character list (for the case-insensitive
`\d+\.\s*(Yes|No)` search of the trust-folder branch). -/
def lowerList (s : List Char) : List Char :=
  s.map Char.toLower

/-- Match of `\d+\.\s*(Yes|No)` (case-insensitive) at the start of `s`. -/
def yesNoAt (s : List Char) : Option Unit :=
  (plusSplits Char.isDigit s).findSome? fun d =>
    match d.2 with
    | '.' :: r =>
      (starSplits jsWs r).findSome? fun w =>
        if ("yes".data).isPrefixOf (lowerList w.2) ||
            ("no".data).isPrefixOf (lowerList w.2) then some ()
        else none
    | _ => none

/-- Whether the output contains a numbered Yes/No option
(`/\d+\.\s*(Yes|No)/i` of the trust-folder branch). -/
def hasNumberedYesNo (s : List Char) : Bool :=
  (searchFrom yesNoAt s).isSome

/-- The two literal phrases whose presence triggers the trust-folder
branch of `detectPrompts`. -/
def hasTrustPhrase (s : List Char) : Bool :=
  containsSub ("trust this folder".data) s || containsSub ("Trust this folder".data) s

/-- The line captured by `/([^\n]*[Tt]rust this folder[^\n]*)/`: the
first line containing one of the trust phrases (the `[^\n]*` arms cannot
cross a newline, so the regex captures exactly that full line). -/
def trustLine (s : List Char) : Option (List Char) :=
  (splitOnChar '\n' s).find? fun l =>
    containsSub ("trust this folder".data) l || containsSub ("Trust this folder".data) l

/-! ### Structured result extraction and JSON values -/

/-- The literal prefix of a structured result object the stream scraper
searches for. -/
def resultLit : List Char :=
  "\x7b\"type\":\"result\"".data

/-- Brace-depth balancing loop of the result extraction: walks the text,
incrementing on every left brace and decrementing on every right brace
(strings are not treated specially, exactly as in the source), and
returns the length up to and including the character where the depth
returns to zero. -/
def braceScan : List Char → Int → Nat → Option Nat
  | [], _, _ => none
  | c :: rest, count, len =>
    let c1 : Int := if c = lbrace then count + 1 else count
    let c2 : Int := if c = rbrace then c1 - 1 else c1
    if c2 = 0 then some (len + 1) else braceScan rest c2 (len + 1)

/-- The candidate result-object span inside one piece of text: from the
first occurrence of the literal prefix to the balancing close, if the
depth returns to zero inside that same text. -/
def resultSpanOf (s : List Char) : Option (List Char) :=
  (findSubSuffix resultLit s).bind fun suf =>
    (braceScan suf 0 0).map fun n => suf.take n

/-- JSON values as produced by `JSON.parse` (numbers keep their source
numeral, which is all the scraper ever needs). -/
inductive Json where
  | jnull
  | jbool (b : Bool)
  | jnum (raw : String)
  | jstr (s : String)
  | jarr (elems : List Json)
  | jobj (fields : List (String × Json))

/-- JSON whitespace (space, tab, newline, carriage return). -/
def skipWsJson (s : List Char) : List Char :=
  s.dropWhile fun c => c == ' ' || c == '\t' || c == '\n' || c == '\r'

/-- Value of a single JSON string escape character. -/
def escMap (c : Char) : Option Char :=
  if c = '"' then some '"'
  else if c = '\\' then some '\\'
  else if c = '/' then some '/'
  else if c = 'b' then some '\x08'
  else if c = 'f' then some '\x0c'
  else if c = 'n' then some '\n'
  else if c = 'r' then some '\r'
  else if c = 't' then some '\t'
  else none

/-- Value of a hexadecimal digit. -/
def hexVal (c : Char) : Option Nat :=
  if c.isDigit then some (c.toNat - 48)
  else if 'a' ≤ c && c ≤ 'f' then some (c.toNat - 87)
  else if 'A' ≤ c && c ≤ 'F' then some (c.toNat - 55)
  else none

/-- Body of a JSON string after the opening quote: collects characters
(undoing escapes) until the closing quote. -/
def stringBody : List Char → List Char → Option (List Char × List Char)
  | _, [] => none
  | acc, '"' :: rest => some (acc.reverse, rest)
  | acc, '\\' :: c :: rest =>
    if c = 'u' then
      match rest with
      | h1 :: h2 :: h3 :: h4 :: r2 =>
        match hexVal h1, hexVal h2, hexVal h3, hexVal h4 with
        | some a, some b, some c', some d =>
          stringBody (Char.ofNat (a * 4096 + b * 256 + c' * 16 + d) :: acc) r2
        | _, _, _, _ => none
      | _ => none
    else
      match escMap c with
      | some e => stringBody (e :: acc) rest
      | none => none
  | acc, c :: rest => stringBody (c :: acc) rest

/-- One or more decimal digits. -/
def digits1 (s : List Char) : Option (List Char × List Char) :=
  let d := s.takeWhile Char.isDigit
  if d.isEmpty then none else some (d, s.dropWhile Char.isDigit)

/-- Integer part of a JSON number: `0`, or a digit run (a leading zero
stops after itself, making over-long forms fail later as JSON requires). -/
def intPart : List Char → Option (List Char × List Char)
  | [] => none
  | '0' :: rest => some (['0'], rest)
  | c :: rest =>
    if c.isDigit then some (c :: rest.takeWhile Char.isDigit, rest.dropWhile Char.isDigit)
    else none

/-- A JSON numeral (sign, integer part, optional fraction and exponent),
returned as its source characters. -/
def numeral (s : List Char) : Option (List Char × List Char) :=
  let signAndRest : List Char × List Char :=
    match s with
    | '-' :: t => (['-'], t)
    | _ => ([], s)
  match intPart signAndRest.2 with
  | none => none
  | some (ip, r1) =>
    let fracAndRest : List Char × List Char :=
      match r1 with
      | '.' :: t =>
        match digits1 t with
        | some (d, r) => ('.' :: d, r)
        | none => ([], r1)
      | _ => ([], r1)
    let r2 := fracAndRest.2
    let expAndRest : List Char × List Char :=
      match r2 with
      | e :: t =>
        if e = 'e' ∨ e = 'E' then
          let sg : List Char × List Char :=
            match t with
            | '+' :: u => (['+'], u)
            | '-' :: u => (['-'], u)
            | _ => ([], t)
          match digits1 sg.2 with
          | some (d, r) => (e :: sg.1 ++ d, r)
          | none => ([], r2)
        else ([], r2)
      | [] => ([], r2)
    some (signAndRest.1 ++ ip ++ fracAndRest.1 ++ expAndRest.1, expAndRest.2)

/-- A scalar JSON value (string, boolean, null or number) at the start
of the text. -/
def scalarVal (s : List Char) : Option (Json × List Char) :=
  match s with
  | '"' :: rest => (stringBody [] rest).map fun x => (Json.jstr (String.mk x.1), x.2)
  | _ =>
    if ("true".data).isPrefixOf s then some (.jbool true, s.drop 4)
    else if ("false".data).isPrefixOf s then some (.jbool false, s.drop 5)
    else if ("null".data).isPrefixOf s then some (.jnull, s.drop 4)
    else (numeral s).map fun x => (Json.jnum (String.mk x.1), x.2)

/-- An object key and its colon. -/
def keyColon (s : List Char) : Option (String × List Char) :=
  match skipWsJson s with
  | '"' :: rest =>
    (stringBody [] rest).bind fun x =>
      match skipWsJson x.2 with
      | ':' :: r2 => some (String.mk x.1, r2)
      | _ => none
  | _ => none

/-- A partially built container on the parse stack: an object with its
completed fields and the key awaiting a value, or an array with its
completed elements. -/
inductive PFrame where
  | pobj (done : List (String × Json)) (key : String)
  | parr (done : List Json)

/-- Whether the parser is about to read a value or has just completed
one. -/
inductive PState where
  | expectVal
  | haveVal (j : Json)

/-- The JSON parse loop: an iterative recursive-descent parser with an
explicit container stack, consuming at least one character per step
(`fuel` bounds the iteration count). Requires the whole text to be one
JSON value, as `JSON.parse` does. -/
def jsonLoop : Nat → PState → List Char → List PFrame → Option Json
  | 0, _, _, _ => none
  | fuel + 1, .expectVal, s, stack =>
    match skipWsJson s with
    | [] => none
    | c :: rest =>
      if c = lbrace then
        match skipWsJson rest with
        | c2 :: r2 =>
          if c2 = rbrace then jsonLoop fuel (.haveVal (.jobj [])) r2 stack
          else
            match keyColon (c2 :: r2) with
            | some (k, r3) => jsonLoop fuel .expectVal r3 (.pobj [] k :: stack)
            | none => none
        | [] => none
      else if c = '[' then
        match skipWsJson rest with
        | ']' :: r2 => jsonLoop fuel (.haveVal (.jarr [])) r2 stack
        | r2 => jsonLoop fuel .expectVal r2 (.parr [] :: stack)
      else
        match scalarVal (c :: rest) with
        | some (j, r) => jsonLoop fuel (.haveVal j) r stack
        | none => none
  | fuel + 1, .haveVal j, s, stack =>
    match stack with
    | [] => if skipWsJson s = [] then some j else none
    | .parr done :: up =>
      match skipWsJson s with
      | ',' :: r => jsonLoop fuel .expectVal r (.parr (done ++ [j]) :: up)
      | ']' :: r => jsonLoop fuel (.haveVal (.jarr (done ++ [j]))) r up
      | _ => none
    | .pobj done key :: up =>
      match skipWsJson s with
      | c :: r =>
        if c = ',' then
          match keyColon r with
          | some (k2, r2) => jsonLoop fuel .expectVal r2 (.pobj (done ++ [(key, j)]) k2 :: up)
          | none => none
        else if c = rbrace then
          jsonLoop fuel (.haveVal (.jobj (done ++ [(key, j)]))) r up
        else none
      | [] => none

/-- `JSON.parse`: parse the whole text as one JSON value, or fail. -/
def jsonParse (s : List Char) : Option Json :=
  jsonLoop (s.length + 2) .expectVal s []

/-- Property access `obj[k]` on a parsed JSON value (`undefined`, i.e.
`none`, when absent or not an object; the last duplicate key wins, as in
`JSON.parse`). -/
def jget (j : Json) (k : String) : Option Json :=
  match j with
  | .jobj fields => fields.foldl (fun acc p => if p.1 = k then some p.2 else acc) none
  | _ => none

/-- Whether a JSON numeral denotes zero (its mantissa digits are all
`0`). -/
def numIsZero (raw : String) : Bool :=
  ((raw.data.takeWhile fun c => !(c == 'e' || c == 'E')).filter
    fun c => !(c == '-' || c == '.')).all fun c => c == '0'

/-- JS truthiness of a parsed JSON value (`false`, `null`, `0` and the
empty string are falsy). -/
def jsTruthy : Json → Bool
  | .jnull => false
  | .jbool b => b
  | .jnum raw => !(numIsZero raw)
  | .jstr s => !(s == "")
  | .jarr _ => true
  | .jobj _ => true

/-! ### TerminalManager state model -/

/-- Kind of a detected interactive prompt. -/
inductive PromptType where
  | binary
  | menu
deriving DecidableEq

/-- The payload handed to the prompt callback (`PromptInfo` in the
source). -/
structure PromptInfo where
  ptype : PromptType
  title : String
  options : List String
  raw : String
deriving DecidableEq

/-- Callback invocations the manager makes into its collaborators
(queue-processing notice, turn-complete notice, prompt-detected
notice). -/
inductive Notification where
  | queueProcess (channelId msg : String)
  | turnComplete (channelId : String)
  | promptDetected (channelId : String) (info : PromptInfo)
deriving DecidableEq

/-- A queued command (`QueuedMessage` in the source): its text, the
OAuth token stored at queue time, and the identity of the deferred
result promise returned by `sendInput`. -/
structure QueuedMessage where
  input : String
  oauthToken : Option String
  promiseId : Nat
deriving DecidableEq

/-- A spawned terminal (`TerminalInstance`, restricted to the fields the
queueing logic reads). -/
structure TerminalInstance where
  id : String
  channelId : String
deriving DecidableEq

/-- A pending interactive prompt for a channel. -/
structure PendingPrompt where
  terminalId : String
  options : List String
deriving DecidableEq

/-- The whole mutable state of a `TerminalManager`, with the process
environment constants it reads and logs of its externally visible
effects: `writes` records every `pty.write`, `notifications` every
collaborator callback, `resolutions` every settled queued-send promise,
and `savedSessionIds` the persisted session-id file contents. -/
structure TMState where
  terminals : List (String × TerminalInstance)
  outputBuffers : List (String × List String)
  mcpConfigs : List (String × String)
  sessionIds : List (String × String)
  busyChannels : List String
  messageQueues : List (String × List QueuedMessage)
  awaitingSessionId : List String
  latestUsageStats : List (String × Json)
  latestResultText : List (String × Json)
  channelModels : List (String × String)
  pendingPrompts : List (String × PendingPrompt)
  envClaudeModel : Option String
  appDirectory : String
  savedSessionIds : List (String × String)
  writes : List (String × String)
  notifications : List Notification
  resolutions : List (Nat × Bool)
  nextPromiseId : Nat

/-- JS truthiness filter for an optional string (the source tests map
lookups with `if (x)`, so the empty string behaves like absence). -/
def truthyStr : Option String → Option String
  | some s => if s = "" then none else some s
  | none => none

/-- `getTerminalByChannelId`: the first spawned terminal whose channel
matches. -/
def getTerminalByChannelId (st : TMState) (channelId : String) : Option TerminalInstance :=
  (st.terminals.find? fun p => p.2.channelId == channelId).map fun p => p.2

/-- The hard-coded default model of `sendInputNow`. -/
def defaultModel : String := "claude-sonnet-4-5-20250929"

/-- Model selection: channel override, else `CLAUDE_MODEL` from the
environment, else the default. -/
def modelFor (st : TMState) (channelId : String) : String :=
  match truthyStr (alookup channelId st.channelModels) with
  | some m => m
  | none =>
    match truthyStr st.envClaudeModel with
    | some m => m
    | none => defaultModel

/-- The `CLAUDE_CODE_OAUTH_TOKEN="…" ` prefix of the command line, empty
when no token was supplied. -/
def tokenPart : Option String → String
  | some t => if t = "" then "" else "CLAUDE_CODE_OAUTH_TOKEN=\"" ++ t ++ "\" "
  | none => ""

/-- The pre-approved read-only tool list of `sendInputNow`, joined with
commas and wrapped in quotes. -/
def allowedToolsStr : String :=
  "\"Read,Bash(ls *),Bash(cat *),Bash(find *),Bash(head *),Bash(tail *),Bash(grep *),Bash(wc *),Bash(file *),Bash(pwd),Bash(which *),Bash(tree *),Bash(du *),Bash(df *),Bash(echo *),Bash(stat *),Bash(realpath *),Bash(dirname *),Bash(basename *),Bash(git log *),Bash(git diff *),Bash(git status *),Bash(git show *),Bash(git branch *),Bash(squeue *),Bash(sinfo *),Bash(sacct *)\""

/-- The permission-prompt delegation flag of `sendInputNow`. -/
def permissionToolStr : String :=
  "--permission-prompt-tool mcp__discord-approval__tool-approval"

/-- The completion sentinel literal echoed after every command. -/
def sentinelLit : String := "___CLAUDE_DONE___"

/-- The command line built when a resume id exists for the channel. -/
def claudeCmdResume (tp esc model mcp sid : String) : String :=
  tp ++ "claude -p \"" ++ esc ++ "\" --model " ++ model ++
    " --output-format json --allowedTools " ++ allowedToolsStr ++ " " ++
    permissionToolStr ++ " --resume \"" ++ sid ++ "\" --mcp-config \"" ++ mcp ++
    "\" ; echo \"" ++ sentinelLit ++ "\""

/-- The command line built for a new conversation (no `--resume` flag). -/
def claudeCmdNew (tp esc model mcp : String) : String :=
  tp ++ "claude -p \"" ++ esc ++ "\" --model " ++ model ++
    " --output-format json --allowedTools " ++ allowedToolsStr ++ " " ++
    permissionToolStr ++ " --mcp-config \"" ++ mcp ++ "\" ; echo \"" ++ sentinelLit ++ "\""

/-- The command line `sendInputNow` writes for a channel, as a function
of the state it reads (session id decides between the resume and
new-conversation shapes). -/
def builtCmd (st : TMState) (channelId input : String) (tok : Option String) : String :=
  match truthyStr (alookup channelId st.sessionIds) with
  | some sid =>
    claudeCmdResume (tokenPart tok) (String.mk (escapeInput input.data))
      (modelFor st channelId) ((truthyStr (alookup channelId st.mcpConfigs)).getD "") sid
  | none =>
    claudeCmdNew (tokenPart tok) (String.mk (escapeInput input.data))
      (modelFor st channelId) ((truthyStr (alookup channelId st.mcpConfigs)).getD "")

/-- `sendInputNow`: look up the terminal and the channel's MCP config,
mark the channel busy, build the escaped command line (arming the
awaiting-session-id state when no resume id exists) and write it to the
pty followed by a carriage return. -/
def sendInputNow (st : TMState) (terminalId input : String) (tok : Option String) :
    TMState × Bool :=
  match alookup terminalId st.terminals with
  | none => (st, false)
  | some term =>
    match truthyStr (alookup term.channelId st.mcpConfigs) with
    | none => (st, false)
    | some _ =>
      match truthyStr (alookup term.channelId st.sessionIds) with
      | some _ =>
        ({ st with
            busyChannels := setInsert term.channelId st.busyChannels,
            writes := st.writes ++
              [(terminalId, builtCmd st term.channelId input tok ++ "\r")] }, true)
      | none =>
        ({ st with
            busyChannels := setInsert term.channelId st.busyChannels,
            awaitingSessionId := setInsert term.channelId st.awaitingSessionId,
            writes := st.writes ++
              [(terminalId, builtCmd st term.channelId input tok ++ "\r")] }, true)

/-- Result of a `sendInput` call: terminal missing (immediate `false`),
a deferred promise registered on the queue, or an immediate dispatch
result. -/
inductive SendOutcome where
  | noTerminal
  | queuedP (pid : Nat)
  | immediate (ok : Bool)
deriving DecidableEq

/-- `sendInput`: when the channel is busy, append the command (with the
OAuth token captured now) to the channel's queue and hand back an
unresolved promise; otherwise dispatch immediately. -/
def sendInput (st : TMState) (terminalId input : String) (tok : Option String) :
    TMState × SendOutcome :=
  match alookup terminalId st.terminals with
  | none => (st, .noTerminal)
  | some term =>
    if term.channelId ∈ st.busyChannels then
      let q := (alookup term.channelId st.messageQueues).getD []
      ({ st with
          messageQueues :=
            ainsert term.channelId (q ++ [⟨input, tok, st.nextPromiseId⟩]) st.messageQueues,
          nextPromiseId := st.nextPromiseId + 1 },
        .queuedP st.nextPromiseId)
    else
      ((sendInputNow st terminalId input tok).1,
        .immediate (sendInputNow st terminalId input tok).2)

/-- `processQueue`: dispatch the next queued command for a channel — if
the terminal is gone, delete the whole queue (without resolving the
queued promises); otherwise shift the front message, notify the
queue-processing callback, dispatch it with the OAuth token stored at
queue time, and resolve its promise with the dispatch result. -/
def processQueue (st : TMState) (channelId : String) : TMState :=
  match alookup channelId st.messageQueues with
  | none => st
  | some [] => st
  | some (next :: rest) =>
    match getTerminalByChannelId st channelId with
    | none => { st with messageQueues := aerase channelId st.messageQueues }
    | some term =>
      { (sendInputNow
          { st with
              messageQueues := ainsert channelId rest st.messageQueues,
              notifications :=
                st.notifications ++ [.queueProcess channelId next.input] }
          term.id next.input next.oauthToken).1 with
        resolutions :=
          (sendInputNow
            { st with
                messageQueues := ainsert channelId rest st.messageQueues,
                notifications :=
                  st.notifications ++ [.queueProcess channelId next.input] }
            term.id next.input next.oauthToken).1.resolutions ++
          [(next.promiseId,
            (sendInputNow
              { st with
                  messageQueues := ainsert channelId rest st.messageQueues,
                  notifications :=
                    st.notifications ++ [.queueProcess channelId next.input] }
              term.id next.input next.oauthToken).2)] }

/-- Record a detected prompt and notify the prompt callback. -/
def recordPrompt (st : TMState) (channelId terminalId : String) (info : PromptInfo) :
    TMState :=
  { st with
      pendingPrompts := ainsert channelId ⟨terminalId, info.options⟩ st.pendingPrompts,
      notifications := st.notifications ++ [.promptDetected channelId info] }

/-- The option texts extracted from a matched menu block: split into
lines, strip the marker/number prefix, trim, drop empties. -/
def menuOptions (block : List Char) : List String :=
  (((splitOnChar '\n' block).map fun l => trimJs (stripOptionMark l)).filter
    fun l => !l.isEmpty).map String.mk

/-- Pattern 3 of `detectPrompts`: the trust-folder heuristic. -/
def detectTrust (st : TMState) (channelId : String) (output : List Char)
    (terminalId : String) : TMState :=
  if hasTrustPhrase output then
    let title :=
      match trustLine output with
      | some l => String.mk (trimJs l)
      | none => "Trust this folder?"
    let hasOptions := hasNumberedYesNo output
    let options :=
      if hasOptions then ["Yes, trust this folder", "No, exit"] else ["Yes", "No"]
    recordPrompt st channelId terminalId
      ⟨if hasOptions then .menu else .binary, title, options, String.mk output⟩
  else st

/-- Pattern 2 of `detectPrompts`: binary yes/no prompts, falling back to
the trust-folder heuristic. -/
def detectBinary (st : TMState) (channelId : String) (output : List Char)
    (terminalId : String) : TMState :=
  match findBinary output with
  | some (m0, titleRaw) =>
    recordPrompt st channelId terminalId
      ⟨.binary, String.mk (trimJs titleRaw), ["Yes", "No"], String.mk m0⟩
  | none => detectTrust st channelId output terminalId

/-- `detectPrompts`: skipped entirely while a pending prompt exists for
the channel; otherwise tries the menu pattern (kept only with at least
two parsed options), then the binary pattern, then the trust-folder
heuristic, recording the first match and notifying the prompt
callback. -/
def detectPrompts (st : TMState) (channelId : String) (output : List Char)
    (terminalId : String) : TMState :=
  if (alookup channelId st.pendingPrompts).isSome then st
  else
    match findMenu output with
    | some (m0, titleRaw, block) =>
      let options := menuOptions block
      if options.length ≥ 2 then
        recordPrompt st channelId terminalId
          ⟨.menu, String.mk (trimJs titleRaw), options, String.mk m0⟩
      else detectBinary st channelId output terminalId
    | none => detectBinary st channelId output terminalId

/-- The ring-buffer push of the `onData` handler (keep the last 1000
chunks). -/
def pushOutput (st : TMState) (terminalId data : String) : TMState :=
  match alookup terminalId st.outputBuffers with
  | none => st
  | some buf =>
    let buf1 := buf ++ [data]
    let buf2 := if buf1.length > 1000 then buf1.tail else buf1
    { st with outputBuffers := ainsert terminalId buf2 st.outputBuffers }

/-- The session-id capture of the `onData` handler: only while the
channel awaits one; the structured `"session_id"` pattern wins over a
bare UUID; on capture the id is stored, the awaiting state disarmed and
the whole map persisted. -/
def captureSessionId (st : TMState) (channelId : String) (clean : List Char) : TMState :=
  if channelId ∈ st.awaitingSessionId then
    match
      (match findSessionId clean with
        | some x => some x
        | none => findUuid clean) with
    | some sid =>
      let sids := ainsert channelId (String.mk sid) st.sessionIds
      { st with
          sessionIds := sids,
          awaitingSessionId := setErase channelId st.awaitingSessionId,
          savedSessionIds := sids }
    | none => st
  else st

/-- The result-object extraction of the `onData` handler: search the
current chunk for the result prefix, brace-balance within that same
chunk, attempt a JSON parse of the span (a failed parse is ignored), and
record the `usage` and `result` fields for the channel. -/
def recordResult (st : TMState) (channelId : String) (clean : List Char) : TMState :=
  match resultSpanOf clean with
  | none => st
  | some span =>
    match jsonParse span with
    | none => st
    | some j =>
      let st1 :=
        match jget j "usage" with
        | some u =>
          if jsTruthy u then
            { st with latestUsageStats := ainsert channelId u st.latestUsageStats }
          else st
        | none => st
      match jget j "result" with
      | some r =>
        if jsTruthy r then
          { st1 with latestResultText := ainsert channelId r st1.latestResultText }
        else st1
      | none => st1

/-- Whether some line of the chunk trims to the completion sentinel. -/
def hasSentinelLine (s : List Char) : Bool :=
  (splitOnChar '\n' s).any fun l => trimJs l == sentinelLit.data

/-- The sentinel branch of the `onData` handler: clear the busy flag,
notify the turn-complete callback, and drain the queue. -/
def onSentinel (st : TMState) (channelId : String) : TMState :=
  processQueue
    { st with
        busyChannels := setErase channelId st.busyChannels,
        notifications := st.notifications ++ [.turnComplete channelId] }
    channelId

/-- The scanning stages of the `onData` handler, in source order: buffer
the raw chunk, strip ANSI codes, capture a session id if armed, extract
a structured result, detect prompts. -/
def onDataScan (st : TMState) (channelId terminalId data : String) : TMState :=
  detectPrompts
    (recordResult
      (captureSessionId (pushOutput st terminalId data) channelId (stripAnsi data.data))
      channelId (stripAnsi data.data))
    channelId (stripAnsi data.data) terminalId

/-- The whole `onData` handler for one arriving chunk, in source order:
the scanning stages, then — only while the channel is busy — the
reaction to a completion sentinel line. -/
def onData (st : TMState) (channelId terminalId data : String) : TMState :=
  if channelId ∈ (onDataScan st channelId terminalId data).busyChannels then
    if hasSentinelLine (stripAnsi data.data) then
      onSentinel (onDataScan st channelId terminalId data) channelId
    else onDataScan st channelId terminalId data
  else onDataScan st channelId terminalId data

/-- `resetConversation`: delete the channel's session id and awaiting
state, persist the cleared map, and drop the busy flag and the whole
queue. -/
def resetConversation (st : TMState) (channelId : String) : TMState :=
  let sids := aerase channelId st.sessionIds
  { st with
      sessionIds := sids,
      awaitingSessionId := setErase channelId st.awaitingSessionId,
      savedSessionIds := sids,
      busyChannels := setErase channelId st.busyChannels,
      messageQueues := aerase channelId st.messageQueues }

/-- `clearBusyState` (called after an interrupt): drop the busy flag and
the whole message queue. -/
def clearBusyState (st : TMState) (channelId : String) : TMState :=
  { st with
      busyChannels := setErase channelId st.busyChannels,
      messageQueues := aerase channelId st.messageQueues }

/-- `sendInterrupt`: write a Ctrl+C byte to the terminal. -/
def sendInterrupt (st : TMState) (terminalId : String) : TMState × Bool :=
  match alookup terminalId st.terminals with
  | none => (st, false)
  | some _ => ({ st with writes := st.writes ++ [(terminalId, "\x03")] }, true)

/-- The interrupt operation as the bot performs it (discord-bot.ts):
`sendInterrupt` on the channel's terminal followed by
`clearBusyState`. -/
def interruptChannel (st : TMState) (channelId terminalId : String) : TMState :=
  clearBusyState (sendInterrupt st terminalId).1 channelId

/-- The MCP config path `spawnClaudeCode` writes for a channel. -/
def mcpPathFor (st : TMState) (channelId : String) : String :=
  st.appDirectory ++ "/.claude-minion/" ++ channelId ++ "/mcp-config.json"

/-- The registry effects of `spawnClaudeCode`: record the MCP config
path, register the terminal under a fresh id, create its empty output
buffer. -/
def spawnTerminal (st : TMState) (channelId terminalId : String) : TMState :=
  { st with
      mcpConfigs := ainsert channelId (mcpPathFor st channelId) st.mcpConfigs,
      terminals := ainsert terminalId ⟨terminalId, channelId⟩ st.terminals,
      outputBuffers := ainsert terminalId [] st.outputBuffers }

/-- The `onExit` handler of a spawned pty (also the registry part of
`killTerminal`): forget the terminal and its buffer. -/
def exitTerminal (st : TMState) (terminalId : String) : TMState :=
  { st with
      terminals := aerase terminalId st.terminals,
      outputBuffers := aerase terminalId st.outputBuffers }

/-- `sendPromptResponse`: answer the pending prompt with a keystroke
(`y`/`n` for two-option prompts, the 1-based number otherwise) and clear
it. -/
def sendPromptResponse (st : TMState) (channelId : String) (optionIndex : Nat) :
    TMState × Bool :=
  match alookup channelId st.pendingPrompts with
  | none => (st, false)
  | some pending =>
    match alookup pending.terminalId st.terminals with
    | none => ({ st with pendingPrompts := aerase channelId st.pendingPrompts }, false)
    | some _ =>
      let key :=
        if pending.options.length = 2 ∧ optionIndex < 2 then
          if optionIndex = 0 then "y" else "n"
        else toString (optionIndex + 1)
      ({ st with
          writes := st.writes ++ [(pending.terminalId, key ++ "\r")],
          pendingPrompts := aerase channelId st.pendingPrompts }, true)

/-- Every externally triggerable operation on the manager, for stating
trace properties. -/
inductive TMStep where
  | spawn (channelId terminalId : String)
  | send (terminalId input : String) (tok : Option String)
  | dataArrives (channelId terminalId data : String)
  | reset (channelId : String)
  | interruptSig (terminalId : String)
  | clearBusy (channelId : String)
  | promptResponse (channelId : String) (optionIndex : Nat)
  | termExit (terminalId : String)

/-- Apply one step to the state. -/
def applyTMStep (st : TMState) : TMStep → TMState
  | .spawn ch tid => spawnTerminal st ch tid
  | .send tid input tok => (sendInput st tid input tok).1
  | .dataArrives ch tid data => onData st ch tid data
  | .reset ch => resetConversation st ch
  | .interruptSig tid => (sendInterrupt st tid).1
  | .clearBusy ch => clearBusyState st ch
  | .promptResponse ch idx => (sendPromptResponse st ch idx).1
  | .termExit tid => exitTerminal st tid

/-- Run a sequence of steps. -/
def runSteps (st : TMState) (steps : List TMStep) : TMState :=
  steps.foldl applyTMStep st

/-! ### Approval coordinator model (approval-server.ts) -/

/-- The mutable state of the approval MCP server, with logs of its
externally visible effects: `resolvedLog` records every invocation of a
pending approval's `resolve` callback (with the delivered response
string), `orchestratorPosts` every approval-request notification sent to
the orchestrator (the UI collaborator). -/
structure ApprovalState where
  sessionAllowlist : List String
  pendingApprovals : List (String × Nat)
  resolvedLog : List (String × String)
  orchestratorPosts : List (String × String)
deriving DecidableEq

/-- Result of starting a `tool-approval` call: either short-circuited by
the session allowlist or registered as a pending approval. -/
inductive StartResult where
  | autoApproved
  | registered
deriving DecidableEq

/-- The front half of the `tool-approval` handler: return `allow` at
once when the tool is in the session allowlist (creating no pending
entry and posting nothing); otherwise register the pending approval
(before notifying, as the source stresses) and post the approval request
to the orchestrator. -/
def toolApprovalStart (st : ApprovalState) (toolName requestId : String) (now : Nat) :
    ApprovalState × StartResult :=
  if toolName ∈ st.sessionAllowlist then (st, .autoApproved)
  else
    ({ st with
        pendingApprovals := ainsert requestId now st.pendingApprovals,
        orchestratorPosts := st.orchestratorPosts ++ [(requestId, toolName)] },
      .registered)

/-- The `/approval-response` HTTP handler's mapping of the request body
to a response string: the `response` field when truthy, else the legacy
boolean `approved` mapped to `allow`/`deny`. -/
def legacyResponse (response : Option String) (approved : Option Bool) : String :=
  match response with
  | some r => if r = "" then (if approved = some true then "allow" else "deny") else r
  | none => if approved = some true then "allow" else "deny"

/-- The `/approval-response` HTTP handler: when the request id is still
pending, invoke its resolver with the delivered response and delete the
entry; an unknown (or already resolved) id changes nothing. -/
def approvalResponseEvent (st : ApprovalState) (requestId response : String) :
    ApprovalState :=
  match alookup requestId st.pendingApprovals with
  | none => st
  | some _ =>
    { st with
        resolvedLog := st.resolvedLog ++ [(requestId, response)],
        pendingApprovals := aerase requestId st.pendingApprovals }

/-- The timeout armed when a pending approval is registered: if the id
is still pending when it fires, delete the entry and resolve it as
`deny`; otherwise do nothing. -/
def approvalTimeoutEvent (st : ApprovalState) (requestId : String) : ApprovalState :=
  match alookup requestId st.pendingApprovals with
  | none => st
  | some _ =>
    { st with
        pendingApprovals := aerase requestId st.pendingApprovals,
        resolvedLog := st.resolvedLog ++ [(requestId, "deny")] }

/-- The decision returned to the MCP caller. -/
inductive Behavior where
  | allowB
  | denyB
deriving DecidableEq

/-- The back half of the `tool-approval` handler, after the resolver
fires: `allow` and `allow_session` map to an allow behaviour —
`allow_session` additionally adds the tool to the session allowlist —
and anything else is a deny. -/
def toolApprovalFinish (st : ApprovalState) (toolName response : String) :
    ApprovalState × Behavior :=
  if response = "allow" ∨ response = "allow_session" then
    (if response = "allow_session" then
        { st with sessionAllowlist := setInsert toolName st.sessionAllowlist }
      else st,
      .allowB)
  else (st, .denyB)

/-- Every externally triggerable event of the approval coordinator. -/
inductive AStep where
  | start (toolName requestId : String) (now : Nat)
  | deliver (requestId response : String)
  | timeoutFires (requestId : String)
  | finish (toolName response : String)

/-- Apply one approval event to the state. -/
def applyAStep (st : ApprovalState) : AStep → ApprovalState
  | .start tool rid now => (toolApprovalStart st tool rid now).1
  | .deliver rid resp => approvalResponseEvent st rid resp
  | .timeoutFires rid => approvalTimeoutEvent st rid
  | .finish tool resp => (toolApprovalFinish st tool resp).1

/-- How often a request id has been resolved. -/
def resolvedCount (requestId : String) (st : ApprovalState) : Nat :=
  (st.resolvedLog.filter fun p => p.1 == requestId).length

/-- The exactly-once discipline: no request id is ever resolved twice,
and a pending id has not been resolved yet. -/
def AInv (st : ApprovalState) : Prop :=
  ∀ requestId, resolvedCount requestId st ≤ 1 ∧
    ((alookup requestId st.pendingApprovals).isSome → resolvedCount requestId st = 0)

/-- Freshness of caller-generated request ids: a `start` event never
reuses a pending or previously resolved id (the spec's global-uniqueness
requirement); other events carry no obligation. -/
def stepOK (st : ApprovalState) : AStep → Prop
  | .start _ rid _ => alookup rid st.pendingApprovals = none ∧ resolvedCount rid st = 0
  | _ => True


/-! ### Association-list and set lemmas -/

theorem alookup_ainsert_self {α : Type} (k : String) (v : α) (l : List (String × α)) :
    alookup k (ainsert k v l) = some v := by
  induction l with
  | nil => simp [ainsert, alookup]
  | cons p rest ih =>
    rcases p with ⟨q, w⟩
    by_cases h : q = k
    · simp [ainsert, alookup, h]
    · simp [ainsert, alookup, h, ih]

theorem alookup_ainsert_ne {α : Type} (k k' : String) (v : α) (l : List (String × α))
    (h : k' ≠ k) : alookup k' (ainsert k v l) = alookup k' l := by
  induction l with
  | nil => simp [ainsert, alookup, Ne.symm h]
  | cons p rest ih =>
    rcases p with ⟨q, w⟩
    by_cases hq : q = k
    · subst hq
      simp [ainsert, alookup, Ne.symm h]
    · by_cases hq' : q = k' <;> simp [ainsert, alookup, hq, hq', h, ih]

theorem alookup_aerase_self {α : Type} (k : String) (l : List (String × α)) :
    alookup k (aerase k l) = none := by
  induction l with
  | nil => simp [aerase, alookup]
  | cons p rest ih =>
    rcases p with ⟨q, w⟩
    by_cases h : q = k
    · simp [aerase, h, ih]
    · simp [aerase, alookup, h, ih]

theorem alookup_aerase_ne {α : Type} (k k' : String) (l : List (String × α))
    (h : k' ≠ k) : alookup k' (aerase k l) = alookup k' l := by
  induction l with
  | nil => simp [aerase]
  | cons p rest ih =>
    rcases p with ⟨q, w⟩
    by_cases hq : q = k
    · subst hq
      simp [aerase, alookup, Ne.symm h, ih]
    · by_cases hq' : q = k' <;> simp [aerase, alookup, hq, hq', h, ih]

theorem mem_setInsert_self (k : String) (l : List String) : k ∈ setInsert k l := by
  by_cases h : k ∈ l <;> simp [setInsert, h]

theorem mem_setInsert_iff (k x : String) (l : List String) :
    x ∈ setInsert k l ↔ x = k ∨ x ∈ l := by
  by_cases hk : k ∈ l
  · simp only [setInsert, hk, if_pos]
    constructor
    · exact Or.inr
    · rintro (rfl | h)
      · exact hk
      · exact h
  · simp [setInsert, hk, List.mem_append, or_comm]

theorem not_mem_setErase_self (k : String) (l : List String) : k ∉ setErase k l := by
  simp [setErase]

theorem mem_setErase_iff (k x : String) (l : List String) :
    x ∈ setErase k l ↔ x ∈ l ∧ x ≠ k := by
  simp [setErase]

/-! ### C7 and C4: the approval coordinator -/

/-- A concrete approval state whose session allowlist already contains
the `Write` tool. -/
def exAllowSt : ApprovalState :=
  { sessionAllowlist := ["Write"]
    pendingApprovals := []
    resolvedLog := []
    orchestratorPosts := [] }

/-- A concrete approval state with one pending approval `r1`. -/
def exPendingSt : ApprovalState :=
  { sessionAllowlist := []
    pendingApprovals := [("r1", 0)]
    resolvedLog := []
    orchestratorPosts := [] }

/-- C7: a request for a tool already in the session allowlist returns
`allow` at once — the state is unchanged, so no pending entry is created
and nothing is posted to the UI collaborator; and an `allow_session`
decision adds the tool to the allowlist, after which a new request for
the same tool short-circuits the same way. -/
theorem claim7_allowlist_shortcircuit :
    (∀ (st : ApprovalState) (tool rid : String) (now : Nat),
      tool ∈ st.sessionAllowlist →
        toolApprovalStart st tool rid now = (st, .autoApproved)) ∧
    (∀ (st : ApprovalState) (tool : String),
      (toolApprovalFinish st tool "allow_session").2 = .allowB ∧
      tool ∈ (toolApprovalFinish st tool "allow_session").1.sessionAllowlist ∧
      (∀ rid now,
        toolApprovalStart (toolApprovalFinish st tool "allow_session").1 tool rid now =
          ((toolApprovalFinish st tool "allow_session").1, .autoApproved))) := by
  constructor
  · intro st tool rid now h
    simp [toolApprovalStart, h]
  · intro st tool
    have hmem : tool ∈ (toolApprovalFinish st tool "allow_session").1.sessionAllowlist := by
      simp only [toolApprovalFinish]
      norm_num
      exact mem_setInsert_self tool st.sessionAllowlist
    refine ⟨by simp [toolApprovalFinish], hmem, ?_⟩
    intro rid now
    simp [toolApprovalStart, hmem]

/-- Witness for C7 at a concrete state. -/
theorem claim7_witness :
    toolApprovalStart exAllowSt "Write" "r9" 5 = (exAllowSt, .autoApproved) :=
  claim7_allowlist_shortcircuit.1 exAllowSt "Write" "r9" 5 (by simp [exAllowSt])

theorem AInv_resolve {st : ApprovalState} {rid : String} (resp : String) {t : Nat}
    (hp : alookup rid st.pendingApprovals = some t)
    (hinv : AInv st) (id : String) :
    (List.filter (fun p => p.1 == id) (st.resolvedLog ++ [(rid, resp)])).length ≤ 1 ∧
    ((alookup id (aerase rid st.pendingApprovals)).isSome →
      (List.filter (fun p => p.1 == id) (st.resolvedLog ++ [(rid, resp)])).length = 0) := by
  by_cases hid : id = rid
  · subst hid
    have hzero : (List.filter (fun p => p.1 == id) st.resolvedLog).length = 0 := by
      simpa [resolvedCount] using (hinv id).2 (by simp [hp])
    constructor
    · simp [List.filter_append, hzero]
    · intro hsome
      rw [alookup_aerase_self] at hsome
      simp at hsome
  · have hne : (rid == id) = false := beq_eq_false_iff_ne.mpr (Ne.symm hid)
    have heq : (List.filter (fun p => p.1 == id) (st.resolvedLog ++ [(rid, resp)])).length =
        (List.filter (fun p => p.1 == id) st.resolvedLog).length := by
      simp [List.filter_append, hne]
    constructor
    · rw [heq]
      simpa [resolvedCount] using (hinv id).1
    · intro hsome
      rw [heq]
      rw [alookup_aerase_ne rid id _ hid] at hsome
      simpa [resolvedCount] using (hinv id).2 hsome

/-- C4: pending approvals resolve exactly once and removal is atomic
with resolution — a firing timeout on a still-pending id removes the
entry and resolves it `deny`; a delivered decision on a pending id
removes the entry and resolves it with that decision, after which a
repeated delivery is a no-op; a decision for an unknown or
already-resolved id is a benign no-op; and the exactly-once invariant
`AInv` is preserved by every coordinator event (request ids being fresh
at registration). -/
theorem claim4_timeout_deny_once :
    (∀ (st : ApprovalState) (rid : String) (t : Nat),
      alookup rid st.pendingApprovals = some t →
        alookup rid (approvalTimeoutEvent st rid).pendingApprovals = none ∧
        (approvalTimeoutEvent st rid).resolvedLog = st.resolvedLog ++ [(rid, "deny")]) ∧
    (∀ (st : ApprovalState) (rid resp : String),
      alookup rid st.pendingApprovals = none →
        approvalResponseEvent st rid resp = st) ∧
    (∀ (st : ApprovalState) (rid resp : String) (t : Nat),
      alookup rid st.pendingApprovals = some t →
        alookup rid (approvalResponseEvent st rid resp).pendingApprovals = none ∧
        (approvalResponseEvent st rid resp).resolvedLog =
          st.resolvedLog ++ [(rid, resp)] ∧
        (∀ resp', approvalResponseEvent (approvalResponseEvent st rid resp) rid resp' =
          approvalResponseEvent st rid resp)) ∧
    (∀ (st : ApprovalState) (step : AStep),
      AInv st → stepOK st step → AInv (applyAStep st step)) := by
  refine ⟨?_, ?_, ?_, ?_⟩
  · intro st rid t h
    simp [approvalTimeoutEvent, h, alookup_aerase_self]
  · intro st rid resp h
    simp [approvalResponseEvent, h]
  · intro st rid resp t h
    have hafter : alookup rid (approvalResponseEvent st rid resp).pendingApprovals = none := by
      simp [approvalResponseEvent, h, alookup_aerase_self]
    refine ⟨hafter, by simp [approvalResponseEvent, h], ?_⟩
    intro resp'
    rw [approvalResponseEvent, hafter]
  · intro st step hinv hok
    cases step with
    | start tool rid now =>
      show AInv (toolApprovalStart st tool rid now).1
      obtain ⟨hpend, hfresh⟩ := hok
      unfold toolApprovalStart
      by_cases hmem : tool ∈ st.sessionAllowlist
      · simpa [hmem] using hinv
      · rw [if_neg hmem]
        intro id
        refine ⟨?_, ?_⟩
        · simpa [resolvedCount] using (hinv id).1
        · intro hsome
          by_cases hid : id = rid
          · subst hid
            exact hfresh
          · simp only [resolvedCount]
            rw [alookup_ainsert_ne rid id now _ hid] at hsome
            simpa [resolvedCount] using (hinv id).2 hsome
    | deliver rid resp =>
      show AInv (approvalResponseEvent st rid resp)
      unfold approvalResponseEvent
      cases hp : alookup rid st.pendingApprovals with
      | none => exact hinv
      | some t =>
        intro id
        simpa [resolvedCount] using AInv_resolve resp hp hinv id
    | timeoutFires rid =>
      show AInv (approvalTimeoutEvent st rid)
      unfold approvalTimeoutEvent
      cases hp : alookup rid st.pendingApprovals with
      | none => exact hinv
      | some t =>
        intro id
        simpa [resolvedCount] using AInv_resolve "deny" hp hinv id
    | finish tool resp =>
      show AInv (toolApprovalFinish st tool resp).1
      unfold toolApprovalFinish
      by_cases h1 : resp = "allow" ∨ resp = "allow_session"
      · rw [if_pos h1]
        by_cases h2 : resp = "allow_session"
        · rw [if_pos h2]
          intro id
          exact ⟨(hinv id).1, (hinv id).2⟩
        · rw [if_neg h2]
          exact hinv
      · rw [if_neg h1]
        exact hinv

/-- Witness for C4 at a concrete pending approval. -/
theorem claim4_witness :
    alookup "r1" (approvalTimeoutEvent exPendingSt "r1").pendingApprovals = none ∧
    (approvalTimeoutEvent exPendingSt "r1").resolvedLog = [("r1", "deny")] := by
  have h := claim4_timeout_deny_once.1 exPendingSt "r1" 0 (by simp [exPendingSt, alookup])
  exact ⟨h.1, by simpa [exPendingSt] using h.2⟩

/-! ### Frame lemmas for the manager's operations -/

theorem pushOutput_frame (st : TMState) (tid data : String) :
    ∃ b, pushOutput st tid data = { st with outputBuffers := b } := by
  unfold pushOutput
  split
  · exact ⟨st.outputBuffers, rfl⟩
  · exact ⟨_, rfl⟩

theorem captureSessionId_frame (st : TMState) (ch : String) (clean : List Char) :
    ∃ si aw sv,
      captureSessionId st ch clean =
        { st with sessionIds := si, awaitingSessionId := aw, savedSessionIds := sv } := by
  unfold captureSessionId
  split
  · split
    · exact ⟨_, _, _, rfl⟩
    · exact ⟨st.sessionIds, st.awaitingSessionId, st.savedSessionIds, rfl⟩
  · exact ⟨st.sessionIds, st.awaitingSessionId, st.savedSessionIds, rfl⟩

theorem captureSessionId_not_awaiting (st : TMState) (ch : String) (clean : List Char)
    (h : ch ∉ st.awaitingSessionId) : captureSessionId st ch clean = st := by
  unfold captureSessionId
  rw [if_neg h]

theorem recordResult_frame (st : TMState) (ch : String) (clean : List Char) :
    ∃ u r, recordResult st ch clean =
      { st with latestUsageStats := u, latestResultText := r } := by
  unfold recordResult
  split
  · exact ⟨st.latestUsageStats, st.latestResultText, rfl⟩
  · split
    · exact ⟨st.latestUsageStats, st.latestResultText, rfl⟩
    · split
      · split
        · split
          · split
            · exact ⟨_, _, rfl⟩
            · exact ⟨_, _, rfl⟩
          · exact ⟨_, _, rfl⟩
        · split
          · split
            · exact ⟨st.latestUsageStats, _, rfl⟩
            · exact ⟨st.latestUsageStats, st.latestResultText, rfl⟩
          · exact ⟨st.latestUsageStats, st.latestResultText, rfl⟩
      · split
        · split
          · exact ⟨_, _, rfl⟩
          · exact ⟨_, st.latestResultText, rfl⟩
        · exact ⟨_, st.latestResultText, rfl⟩

theorem recordResult_none (st : TMState) (ch : String) (clean : List Char)
    (h : resultSpanOf clean = none) : recordResult st ch clean = st := by
  unfold recordResult
  rw [h]

theorem detectTrust_frame (st : TMState) (ch : String) (out : List Char) (tid : String) :
    ∃ p n, detectTrust st ch out tid =
      { st with pendingPrompts := p, notifications := n } := by
  unfold detectTrust recordPrompt
  split
  · exact ⟨_, _, rfl⟩
  · exact ⟨st.pendingPrompts, st.notifications, rfl⟩

theorem detectBinary_frame (st : TMState) (ch : String) (out : List Char) (tid : String) :
    ∃ p n, detectBinary st ch out tid =
      { st with pendingPrompts := p, notifications := n } := by
  unfold detectBinary
  split
  · unfold recordPrompt
    exact ⟨_, _, rfl⟩
  · exact detectTrust_frame st ch out tid

theorem detectPrompts_frame (st : TMState) (ch : String) (out : List Char) (tid : String) :
    ∃ p n, detectPrompts st ch out tid =
      { st with pendingPrompts := p, notifications := n } := by
  unfold detectPrompts
  split
  · exact ⟨st.pendingPrompts, st.notifications, rfl⟩
  · split
    · dsimp only
      split
      · unfold recordPrompt
        exact ⟨_, _, rfl⟩
      · exact detectBinary_frame st ch out tid
    · exact detectBinary_frame st ch out tid

theorem sendInputNow_pres (st : TMState) (tid input : String) (tok : Option String) :
    (sendInputNow st tid input tok).1.messageQueues = st.messageQueues ∧
    (sendInputNow st tid input tok).1.resolutions = st.resolutions ∧
    (sendInputNow st tid input tok).1.nextPromiseId = st.nextPromiseId ∧
    (sendInputNow st tid input tok).1.terminals = st.terminals ∧
    (sendInputNow st tid input tok).1.latestResultText = st.latestResultText ∧
    (sendInputNow st tid input tok).1.latestUsageStats = st.latestUsageStats ∧
    (sendInputNow st tid input tok).1.notifications = st.notifications ∧
    (sendInputNow st tid input tok).1.sessionIds = st.sessionIds := by
  unfold sendInputNow
  split
  · exact ⟨rfl, rfl, rfl, rfl, rfl, rfl, rfl, rfl⟩
  · split
    · exact ⟨rfl, rfl, rfl, rfl, rfl, rfl, rfl, rfl⟩
    · split
      · exact ⟨rfl, rfl, rfl, rfl, rfl, rfl, rfl, rfl⟩
      · exact ⟨rfl, rfl, rfl, rfl, rfl, rfl, rfl, rfl⟩

/-- What a successful `sendInputNow` does, in terms of the state it was
given: returns `true`, appends exactly the built command line (plus a
carriage return) to the pty write log, marks the channel busy, and
leaves the queue, promise and resolution state alone. -/
theorem sendInputNow_dispatch (st : TMState) (tid input : String) (tok : Option String)
    (term : TerminalInstance) (mcp : String)
    (hterm : alookup tid st.terminals = some term)
    (hmcp : truthyStr (alookup term.channelId st.mcpConfigs) = some mcp) :
    (sendInputNow st tid input tok).2 = true ∧
    (sendInputNow st tid input tok).1.writes =
      st.writes ++ [(tid, builtCmd st term.channelId input tok ++ "\r")] ∧
    term.channelId ∈ (sendInputNow st tid input tok).1.busyChannels := by
  unfold sendInputNow
  simp only [hterm, hmcp]
  cases hsid : truthyStr (alookup term.channelId st.sessionIds) with
  | none => exact ⟨rfl, rfl, mem_setInsert_self term.channelId st.busyChannels⟩
  | some sid => exact ⟨rfl, rfl, mem_setInsert_self term.channelId st.busyChannels⟩

/-- `sendInputNow` arms the awaiting-session-id capture state when the
channel has no resume id. -/
theorem sendInputNow_arms_awaiting (st : TMState) (tid input : String) (tok : Option String)
    (term : TerminalInstance) (mcp : String)
    (hterm : alookup tid st.terminals = some term)
    (hmcp : truthyStr (alookup term.channelId st.mcpConfigs) = some mcp)
    (hsid : truthyStr (alookup term.channelId st.sessionIds) = none) :
    term.channelId ∈ (sendInputNow st tid input tok).1.awaitingSessionId := by
  unfold sendInputNow
  simp only [hterm, hmcp, hsid]
  exact mem_setInsert_self term.channelId _

theorem processQueue_missing (st : TMState) (ch : String)
    (h : alookup ch st.messageQueues = none) : processQueue st ch = st := by
  unfold processQueue
  rw [h]

theorem processQueue_nil (st : TMState) (ch : String)
    (h : alookup ch st.messageQueues = some []) : processQueue st ch = st := by
  unfold processQueue
  rw [h]

theorem processQueue_no_terminal (st : TMState) (ch : String) (m : QueuedMessage)
    (rest : List QueuedMessage)
    (hq : alookup ch st.messageQueues = some (m :: rest))
    (ht : getTerminalByChannelId st ch = none) :
    processQueue st ch = { st with messageQueues := aerase ch st.messageQueues } := by
  unfold processQueue
  rw [hq, ht]

/-- What draining one queued command does when the channel's terminal is
alive: the front message is shifted off, its command line (built with
the OAuth token stored at queue time) is written, its promise resolves
`true`, and the channel is busy again. -/
theorem processQueue_dispatch (st : TMState) (ch : String) (m : QueuedMessage)
    (rest : List QueuedMessage) (term : TerminalInstance) (mcp : String)
    (hq : alookup ch st.messageQueues = some (m :: rest))
    (hterm : getTerminalByChannelId st ch = some term)
    (hterm2 : alookup term.id st.terminals = some term)
    (hch : term.channelId = ch)
    (hmcp : truthyStr (alookup ch st.mcpConfigs) = some mcp) :
    (processQueue st ch).writes =
      st.writes ++ [(term.id, builtCmd st ch m.input m.oauthToken ++ "\r")] ∧
    alookup ch (processQueue st ch).messageQueues = some rest ∧
    (processQueue st ch).resolutions = st.resolutions ++ [(m.promiseId, true)] ∧
    ch ∈ (processQueue st ch).busyChannels ∧
    (processQueue st ch).nextPromiseId = st.nextPromiseId ∧
    (processQueue st ch).notifications =
      st.notifications ++ [.queueProcess ch m.input] := by
  unfold processQueue
  simp only [hq, hterm]
  set B : TMState :=
    { st with
        messageQueues := ainsert ch rest st.messageQueues,
        notifications :=
          st.notifications ++ [Notification.queueProcess ch m.input] } with hB
  have hbase : alookup term.id B.terminals = some term := hterm2
  have hmcp2 : truthyStr (alookup term.channelId B.mcpConfigs) = some mcp := by
    rw [hch]
    exact hmcp
  have hd := sendInputNow_dispatch B term.id m.input m.oauthToken term mcp hbase hmcp2
  have hp := sendInputNow_pres B term.id m.input m.oauthToken
  refine ⟨?_, ?_, ?_, ?_, ?_, ?_⟩
  · show (sendInputNow B term.id m.input m.oauthToken).1.writes =
      st.writes ++ [(term.id, builtCmd st ch m.input m.oauthToken ++ "\r")]
    rw [hd.2.1, hch]
    rfl
  · show alookup ch (sendInputNow B term.id m.input m.oauthToken).1.messageQueues =
      some rest
    rw [hp.1]
    show alookup ch (ainsert ch rest st.messageQueues) = some rest
    exact alookup_ainsert_self ch rest st.messageQueues
  · show (sendInputNow B term.id m.input m.oauthToken).1.resolutions ++
      [(m.promiseId, (sendInputNow B term.id m.input m.oauthToken).2)] =
        st.resolutions ++ [(m.promiseId, true)]
    rw [hp.2.1, hd.1]
  · show ch ∈ (sendInputNow B term.id m.input m.oauthToken).1.busyChannels
    rw [← hch]
    exact hd.2.2
  · show (sendInputNow B term.id m.input m.oauthToken).1.nextPromiseId = st.nextPromiseId
    rw [hp.2.2.1]
  · show (sendInputNow B term.id m.input m.oauthToken).1.notifications =
      st.notifications ++ [Notification.queueProcess ch m.input]
    rw [hp.2.2.2.2.2.2.1]

/-- The scanning stages change only the output buffer, session-id
state, captured result state, prompt state and notification log. -/
theorem onDataScan_frame (st : TMState) (ch tid data : String) :
    ∃ b si aw sv u r p n,
      onDataScan st ch tid data =
        { st with
            outputBuffers := b, sessionIds := si, awaitingSessionId := aw,
            savedSessionIds := sv, latestUsageStats := u, latestResultText := r,
            pendingPrompts := p, notifications := n } := by
  unfold onDataScan
  obtain ⟨b, hb⟩ := pushOutput_frame st tid data
  rw [hb]
  obtain ⟨si, aw, sv, hc⟩ := captureSessionId_frame _ ch (stripAnsi data.data)
  rw [hc]
  obtain ⟨u, r, hr⟩ := recordResult_frame _ ch (stripAnsi data.data)
  rw [hr]
  obtain ⟨p, n, hp⟩ := detectPrompts_frame _ ch (stripAnsi data.data) tid
  rw [hp]
  exact ⟨b, si, aw, sv, u, r, p, n, rfl⟩

/-- When the channel is not awaiting a session id, the scanning stages
additionally leave the session-id state alone. -/
theorem onDataScan_frame_noawait (st : TMState) (ch tid data : String)
    (h : ch ∉ st.awaitingSessionId) :
    ∃ b u r p n,
      onDataScan st ch tid data =
        { st with
            outputBuffers := b, latestUsageStats := u, latestResultText := r,
            pendingPrompts := p, notifications := n } := by
  unfold onDataScan
  obtain ⟨b, hb⟩ := pushOutput_frame st tid data
  rw [hb]
  rw [captureSessionId_not_awaiting { st with outputBuffers := b } ch
    (stripAnsi data.data) h]
  obtain ⟨u, r, hr⟩ := recordResult_frame _ ch (stripAnsi data.data)
  rw [hr]
  obtain ⟨p, n, hp⟩ := detectPrompts_frame _ ch (stripAnsi data.data) tid
  rw [hp]
  exact ⟨b, u, r, p, n, rfl⟩

/-! ### C1 and C3: the busy/queue state machine -/

/-- C1: at most one command is in flight per channel — `sendInput` on a
busy channel writes nothing to the process and appends the command at
the back of that channel's queue (returning a fresh deferred promise);
a chunk without a completion sentinel line never dispatches (writes,
queues and busy flags are untouched); and when the sentinel is observed
on a busy channel, exactly the front queued command is dispatched
(written to the pty, shifted off the queue, its promise resolved). -/
theorem claim1_busy_queue_fifo :
    (∀ (st : TMState) (tid input : String) (tok : Option String) (term : TerminalInstance),
      alookup tid st.terminals = some term →
      term.channelId ∈ st.busyChannels →
        (sendInput st tid input tok).2 = SendOutcome.queuedP st.nextPromiseId ∧
        (sendInput st tid input tok).1.writes = st.writes ∧
        alookup term.channelId (sendInput st tid input tok).1.messageQueues =
          some ((alookup term.channelId st.messageQueues).getD [] ++
            [⟨input, tok, st.nextPromiseId⟩])) ∧
    (∀ (st : TMState) (ch tid data : String),
      hasSentinelLine (stripAnsi data.data) = false →
        (onData st ch tid data).writes = st.writes ∧
        (onData st ch tid data).messageQueues = st.messageQueues ∧
        (onData st ch tid data).busyChannels = st.busyChannels) ∧
    (∀ (st : TMState) (ch tid data : String) (m : QueuedMessage)
        (rest : List QueuedMessage) (term : TerminalInstance) (mcp : String),
      ch ∈ st.busyChannels →
      ch ∉ st.awaitingSessionId →
      hasSentinelLine (stripAnsi data.data) = true →
      alookup ch st.messageQueues = some (m :: rest) →
      getTerminalByChannelId st ch = some term →
      alookup term.id st.terminals = some term →
      term.channelId = ch →
      truthyStr (alookup ch st.mcpConfigs) = some mcp →
        (onData st ch tid data).writes =
          st.writes ++ [(term.id, builtCmd st ch m.input m.oauthToken ++ "\r")] ∧
        alookup ch (onData st ch tid data).messageQueues = some rest ∧
        (onData st ch tid data).resolutions = st.resolutions ++ [(m.promiseId, true)]) := by
  refine ⟨?_, ?_, ?_⟩
  · intro st tid input tok term hterm hbusy
    unfold sendInput
    simp only [hterm]
    rw [if_pos hbusy]
    exact ⟨rfl, rfl, alookup_ainsert_self term.channelId _ st.messageQueues⟩
  · intro st ch tid data hsent
    unfold onData
    obtain ⟨b, si, aw, sv, u, r, p, n, hscan⟩ := onDataScan_frame st ch tid data
    rw [hscan]
    by_cases hb : ch ∈ st.busyChannels
    · rw [if_pos hb, hsent, if_neg Bool.false_ne_true]
      exact ⟨rfl, rfl, rfl⟩
    · rw [if_neg hb]
      exact ⟨rfl, rfl, rfl⟩
  · intro st ch tid data m rest term mcp hbusy hawait hsent hq hterm hterm2 hch hmcp
    unfold onData
    obtain ⟨b, u, r, p, n, hscan⟩ := onDataScan_frame_noawait st ch tid data hawait
    rw [hscan, if_pos hbusy, if_pos hsent]
    unfold onSentinel
    have hd := processQueue_dispatch
      { st with
          outputBuffers := b, latestUsageStats := u, latestResultText := r,
          pendingPrompts := p, busyChannels := setErase ch st.busyChannels,
          notifications := n ++ [Notification.turnComplete ch] }
      ch m rest term mcp hq hterm hterm2 hch hmcp
    exact ⟨hd.1, hd.2.1, hd.2.2.1⟩

/-- A concrete busy state with one terminal `T1` on channel `C1` and a
single queued message. -/
def exBusySt : TMState :=
  { terminals := [("T1", ⟨"T1", "C1"⟩)]
    outputBuffers := [("T1", [])]
    mcpConfigs := [("C1", "cfg")]
    sessionIds := []
    busyChannels := ["C1"]
    messageQueues := [("C1", [⟨"m1", some "tokA", 0⟩])]
    awaitingSessionId := []
    latestUsageStats := []
    latestResultText := []
    channelModels := []
    pendingPrompts := []
    envClaudeModel := none
    appDirectory := ""
    savedSessionIds := []
    writes := []
    notifications := []
    resolutions := []
    nextPromiseId := 1 }

/-- Witness for C1: queueing a second message on the busy channel. -/
theorem claim1_witness :
    (sendInput exBusySt "T1" "m2" none).2 = SendOutcome.queuedP 1 ∧
    (sendInput exBusySt "T1" "m2" none).1.writes = [] ∧
    alookup "C1" (sendInput exBusySt "T1" "m2" none).1.messageQueues =
      some [⟨"m1", some "tokA", 0⟩, ⟨"m2", none, 1⟩] := by
  have h := claim1_busy_queue_fifo.1 exBusySt "T1" "m2" none ⟨"T1", "C1"⟩ rfl
    (by simp [exBusySt])
  exact ⟨h.1, h.2.1, h.2.2⟩

/-- C3: observing the completion sentinel while busy clears the busy
flag and, when the queue is empty, the channel simply goes idle (nothing
is written or resolved); when the queue is non-empty the front command
is dispatched with the OAuth credential stored when it was enqueued
(`m.oauthToken` is what the written command line is built from, not any
later credential), the queue shifts, and the channel becomes busy
again. -/
theorem claim3_sentinel_dispatch_enqueued_credential :
    (∀ (st : TMState) (ch tid data : String),
      ch ∈ st.busyChannels →
      hasSentinelLine (stripAnsi data.data) = true →
      (alookup ch st.messageQueues = none ∨ alookup ch st.messageQueues = some []) →
        ch ∉ (onData st ch tid data).busyChannels ∧
        (onData st ch tid data).writes = st.writes ∧
        (onData st ch tid data).resolutions = st.resolutions) ∧
    (∀ (st : TMState) (ch tid data : String) (m : QueuedMessage)
        (rest : List QueuedMessage) (term : TerminalInstance) (mcp : String),
      ch ∈ st.busyChannels →
      ch ∉ st.awaitingSessionId →
      hasSentinelLine (stripAnsi data.data) = true →
      alookup ch st.messageQueues = some (m :: rest) →
      getTerminalByChannelId st ch = some term →
      alookup term.id st.terminals = some term →
      term.channelId = ch →
      truthyStr (alookup ch st.mcpConfigs) = some mcp →
        (onData st ch tid data).writes =
          st.writes ++ [(term.id, builtCmd st ch m.input m.oauthToken ++ "\r")] ∧
        alookup ch (onData st ch tid data).messageQueues = some rest ∧
        ch ∈ (onData st ch tid data).busyChannels ∧
        (onData st ch tid data).notifications =
          ((onDataScan st ch tid data).notifications ++ [Notification.turnComplete ch]) ++
            [Notification.queueProcess ch m.input]) := by
  constructor
  · intro st ch tid data hbusy hsent hempty
    unfold onData
    obtain ⟨b, si, aw, sv, u, r, p, n, hscan⟩ := onDataScan_frame st ch tid data
    rw [hscan, if_pos hbusy, if_pos hsent]
    unfold onSentinel
    rcases hempty with he | he
    · rw [processQueue_missing
        { st with
            outputBuffers := b, sessionIds := si, awaitingSessionId := aw,
            savedSessionIds := sv, latestUsageStats := u, latestResultText := r,
            pendingPrompts := p, busyChannels := setErase ch st.busyChannels,
            notifications := n ++ [Notification.turnComplete ch] } ch he]
      exact ⟨not_mem_setErase_self ch st.busyChannels, rfl, rfl⟩
    · rw [processQueue_nil
        { st with
            outputBuffers := b, sessionIds := si, awaitingSessionId := aw,
            savedSessionIds := sv, latestUsageStats := u, latestResultText := r,
            pendingPrompts := p, busyChannels := setErase ch st.busyChannels,
            notifications := n ++ [Notification.turnComplete ch] } ch he]
      exact ⟨not_mem_setErase_self ch st.busyChannels, rfl, rfl⟩
  · intro st ch tid data m rest term mcp hbusy hawait hsent hq hterm hterm2 hch hmcp
    unfold onData
    obtain ⟨b, u, r, p, n, hscan⟩ := onDataScan_frame_noawait st ch tid data hawait
    rw [hscan, if_pos hbusy, if_pos hsent]
    unfold onSentinel
    have hd := processQueue_dispatch
      { st with
          outputBuffers := b, latestUsageStats := u, latestResultText := r,
          pendingPrompts := p, busyChannels := setErase ch st.busyChannels,
          notifications := n ++ [Notification.turnComplete ch] }
      ch m rest term mcp hq hterm hterm2 hch hmcp
    refine ⟨hd.1, hd.2.1, hd.2.2.2.1, ?_⟩
    rw [hd.2.2.2.2.2]

/-- Witness for C3: a sentinel chunk on the busy channel dispatches the
queued message with the token stored at queue time. -/
theorem claim3_witness :
    (onData exBusySt "C1" "T1" "___CLAUDE_DONE___\n").writes =
      [("T1", builtCmd exBusySt "C1" "m1" (some "tokA") ++ "\r")] ∧
    alookup "C1" (onData exBusySt "C1" "T1" "___CLAUDE_DONE___\n").messageQueues =
      some [] ∧
    "C1" ∈ (onData exBusySt "C1" "T1" "___CLAUDE_DONE___\n").busyChannels := by
  have h := claim3_sentinel_dispatch_enqueued_credential.2 exBusySt "C1" "T1"
    "___CLAUDE_DONE___\n" ⟨"m1", some "tokA", 0⟩ [] ⟨"T1", "C1"⟩ "cfg"
    (by simp [exBusySt]) (by simp [exBusySt]) (by decide) rfl rfl rfl rfl rfl
  exact ⟨h.1, h.2.1, h.2.2.1⟩

/-! ### C5 and C10: dropped queues stay dropped -/

/-- A promise id that is absent from the whole system: smaller than the
next fresh id, in no channel's queue, and never resolved. -/
def promiseFree (p : Nat) (st : TMState) : Prop :=
  p < st.nextPromiseId ∧
  (∀ ch q, alookup ch st.messageQueues = some q → ∀ m ∈ q, m.promiseId ≠ p) ∧
  (∀ b : Bool, (p, b) ∉ st.resolutions)

theorem queuesFree_aerase (p : Nat) (ch : String)
    (l : List (String × List QueuedMessage))
    (h : ∀ ch' q, alookup ch' l = some q → ∀ m ∈ q, m.promiseId ≠ p) :
    ∀ ch' q, alookup ch' (aerase ch l) = some q → ∀ m ∈ q, m.promiseId ≠ p := by
  intro ch' q hq m hm
  by_cases hcc : ch' = ch
  · subst hcc
    rw [alookup_aerase_self] at hq
    cases hq
  · rw [alookup_aerase_ne ch ch' l hcc] at hq
    exact h ch' q hq m hm

theorem promiseFree_dispatch_result (p : Nat) (B : TMState) (tid input : String)
    (tok : Option String) (pid : Nat) (hfree : promiseFree p B) (hpid : pid ≠ p) :
    promiseFree p
      { (sendInputNow B tid input tok).1 with
          resolutions := (sendInputNow B tid input tok).1.resolutions ++
            [(pid, (sendInputNow B tid input tok).2)] } := by
  have hp := sendInputNow_pres B tid input tok
  refine ⟨?_, ?_, ?_⟩
  · show p < (sendInputNow B tid input tok).1.nextPromiseId
    rw [hp.2.2.1]
    exact hfree.1
  · intro ch q hq m hm
    have hq' : alookup ch (sendInputNow B tid input tok).1.messageQueues = some q := hq
    rw [hp.1] at hq'
    exact hfree.2.1 ch q hq' m hm
  · intro b hb
    have hb' : (p, b) ∈ (sendInputNow B tid input tok).1.resolutions ++
        [(pid, (sendInputNow B tid input tok).2)] := hb
    rw [hp.2.1] at hb'
    rcases List.mem_append.mp hb' with h1 | h1
    · exact hfree.2.2 b h1
    · have h2 := List.mem_singleton.mp h1
      have h3 : p = pid := congrArg Prod.fst h2
      exact hpid h3.symm

theorem promiseFree_processQueue (p : Nat) (st : TMState) (ch : String)
    (h : promiseFree p st) : promiseFree p (processQueue st ch) := by
  unfold processQueue
  split
  · exact h
  · exact h
  · rename_i next rest hq
    split
    · exact ⟨h.1, queuesFree_aerase p ch st.messageQueues h.2.1, h.2.2⟩
    · rename_i term ht
      apply promiseFree_dispatch_result
      · refine ⟨h.1, ?_, h.2.2⟩
        intro ch' q' hq' m' hm'
        have hq'' : alookup ch'
            (ainsert ch rest st.messageQueues) = some q' := hq'
        by_cases hcc : ch' = ch
        · subst hcc
          rw [alookup_ainsert_self] at hq''
          cases hq''
          exact h.2.1 ch' (next :: rest) hq m' (List.mem_cons_of_mem next hm')
        · rw [alookup_ainsert_ne ch ch' rest _ hcc] at hq''
          exact h.2.1 ch' q' hq'' m' hm'
      · exact h.2.1 ch (next :: rest) hq next (List.mem_cons_self next rest)

theorem promiseFree_onData (p : Nat) (st : TMState) (ch tid data : String)
    (h : promiseFree p st) : promiseFree p (onData st ch tid data) := by
  unfold onData
  obtain ⟨b, si, aw, sv, u, r, pp, n, hscan⟩ := onDataScan_frame st ch tid data
  rw [hscan]
  by_cases hb : ch ∈ st.busyChannels
  · rw [if_pos hb]
    by_cases hs : hasSentinelLine (stripAnsi data.data) = true
    · rw [if_pos hs]
      unfold onSentinel
      exact promiseFree_processQueue p _ ch ⟨h.1, h.2.1, h.2.2⟩
    · rw [if_neg hs]
      exact ⟨h.1, h.2.1, h.2.2⟩
  · rw [if_neg hb]
    exact ⟨h.1, h.2.1, h.2.2⟩

theorem promiseFree_sendInput (p : Nat) (st : TMState) (tid input : String)
    (tok : Option String) (h : promiseFree p st) :
    promiseFree p (sendInput st tid input tok).1 := by
  unfold sendInput
  split
  · exact h
  · rename_i term ht
    split
    · refine ⟨Nat.lt_succ_of_lt h.1, ?_, h.2.2⟩
      intro ch' q' hq' m' hm'
      have hq'' : alookup ch'
          (ainsert term.channelId
            ((alookup term.channelId st.messageQueues).getD [] ++
              [⟨input, tok, st.nextPromiseId⟩]) st.messageQueues) = some q' := hq'
      by_cases hcc : ch' = term.channelId
      · subst hcc
        rw [alookup_ainsert_self] at hq''
        cases hq''
        rcases List.mem_append.mp hm' with h1 | h1
        · cases hql : alookup term.channelId st.messageQueues with
          | none =>
            rw [hql] at h1
            cases h1
          | some qold =>
            rw [hql] at h1
            exact h.2.1 term.channelId qold hql m' h1
        · have hm'' : m' = ⟨input, tok, st.nextPromiseId⟩ := List.mem_singleton.mp h1
          rw [hm'']
          intro hcontra
          have hnp : st.nextPromiseId = p := hcontra
          exact Nat.lt_irrefl p (hnp ▸ h.1)
      · rw [alookup_ainsert_ne term.channelId ch' _ _ hcc] at hq''
        exact h.2.1 ch' q' hq'' m' hm'
    · have hp := sendInputNow_pres st tid input tok
      refine ⟨?_, ?_, ?_⟩
      · show p < (sendInputNow st tid input tok).1.nextPromiseId
        rw [hp.2.2.1]
        exact h.1
      · intro ch' q' hq' m' hm'
        have hq'' : alookup ch' (sendInputNow st tid input tok).1.messageQueues =
            some q' := hq'
        rw [hp.1] at hq''
        exact h.2.1 ch' q' hq'' m' hm'
      · intro b hb
        have hb' : (p, b) ∈ (sendInputNow st tid input tok).1.resolutions := hb
        rw [hp.2.1] at hb'
        exact h.2.2 b hb'

theorem promiseFree_step (p : Nat) (st : TMState) (step : TMStep)
    (h : promiseFree p st) : promiseFree p (applyTMStep st step) := by
  cases step with
  | spawn ch tid => exact ⟨h.1, h.2.1, h.2.2⟩
  | send tid input tok => exact promiseFree_sendInput p st tid input tok h
  | dataArrives ch tid data => exact promiseFree_onData p st ch tid data h
  | reset ch => exact ⟨h.1, queuesFree_aerase p ch st.messageQueues h.2.1, h.2.2⟩
  | interruptSig tid =>
    show promiseFree p (sendInterrupt st tid).1
    unfold sendInterrupt
    split
    · exact h
    · exact ⟨h.1, h.2.1, h.2.2⟩
  | clearBusy ch => exact ⟨h.1, queuesFree_aerase p ch st.messageQueues h.2.1, h.2.2⟩
  | promptResponse ch idx =>
    show promiseFree p (sendPromptResponse st ch idx).1
    unfold sendPromptResponse
    split
    · exact h
    · split
      · exact ⟨h.1, h.2.1, h.2.2⟩
      · exact ⟨h.1, h.2.1, h.2.2⟩
  | termExit tid => exact ⟨h.1, h.2.1, h.2.2⟩

theorem promiseFree_runSteps (p : Nat) (st : TMState) (steps : List TMStep)
    (h : promiseFree p st) : promiseFree p (runSteps st steps) := by
  induction steps generalizing st with
  | nil => exact h
  | cons s rest ih => exact ih (applyTMStep st s) (promiseFree_step p st s h)

/-- C5: interrupting a channel (Ctrl+C to its pty, then
`clearBusyState`) clears the busy flag and drops the entire queue, and
none of the previously queued commands is ever dispatched afterwards:
their promises stay unresolved over every possible continuation of the
system (they are not retried or preserved). -/
theorem claim5_interrupt_clears_and_drops :
    ∀ (st : TMState) (ch tid : String),
      (∀ term, alookup tid st.terminals = some term →
        (interruptChannel st ch tid).writes = st.writes ++ [(tid, "\x03")]) ∧
      ch ∉ (interruptChannel st ch tid).busyChannels ∧
      alookup ch (interruptChannel st ch tid).messageQueues = none ∧
      (∀ q, alookup ch st.messageQueues = some q →
        ∀ m ∈ q, m.promiseId < st.nextPromiseId →
          (∀ b : Bool, (m.promiseId, b) ∉ st.resolutions) →
          (∀ ch' q', alookup ch' st.messageQueues = some q' →
            ∀ m' ∈ q', m'.promiseId = m.promiseId → ch' = ch) →
          ∀ (steps : List TMStep) (b : Bool),
            (m.promiseId, b) ∉
              (runSteps (interruptChannel st ch tid) steps).resolutions) := by
  intro st ch tid
  refine ⟨?_, ?_, ?_, ?_⟩
  · intro term hterm
    unfold interruptChannel clearBusyState sendInterrupt
    simp only [hterm]
  · exact not_mem_setErase_self ch _
  · unfold interruptChannel clearBusyState
    exact alookup_aerase_self ch _
  · intro q hq m hm hlt hunres huniq steps b hb
    have hfree : promiseFree m.promiseId (interruptChannel st ch tid) := by
      have hpres : (sendInterrupt st tid).1.messageQueues = st.messageQueues ∧
          (sendInterrupt st tid).1.resolutions = st.resolutions ∧
          (sendInterrupt st tid).1.nextPromiseId = st.nextPromiseId := by
        unfold sendInterrupt
        split
        · exact ⟨rfl, rfl, rfl⟩
        · exact ⟨rfl, rfl, rfl⟩
      refine ⟨?_, ?_, ?_⟩
      · show m.promiseId < (sendInterrupt st tid).1.nextPromiseId
        rw [hpres.2.2]
        exact hlt
      · intro ch' q' hq' m' hm'
        have hq'' : alookup ch' (aerase ch (sendInterrupt st tid).1.messageQueues) =
            some q' := hq'
        rw [hpres.1] at hq''
        by_cases hcc : ch' = ch
        · subst hcc
          rw [alookup_aerase_self] at hq''
          cases hq''
        · rw [alookup_aerase_ne ch ch' _ hcc] at hq''
          intro hpid
          exact hcc (huniq ch' q' hq'' m' hm' hpid)
      · intro b' hb'
        have hb'' : (m.promiseId, b') ∈ (sendInterrupt st tid).1.resolutions := hb'
        rw [hpres.2.1] at hb''
        exact hunres b' hb''
    exact (promiseFree_runSteps m.promiseId _ steps hfree).2.2 b hb

/-- Witness for C5: interrupting the busy channel drops its queued
message, and over a continuation that sends the sentinel and a new
message, the dropped promise `0` is never resolved. -/
theorem claim5_witness :
    (interruptChannel exBusySt "C1" "T1").writes = [("T1", "\x03")] ∧
    "C1" ∉ (interruptChannel exBusySt "C1" "T1").busyChannels ∧
    alookup "C1" (interruptChannel exBusySt "C1" "T1").messageQueues = none ∧
    ∀ b : Bool,
      (0, b) ∉
        (runSteps (interruptChannel exBusySt "C1" "T1")
          [TMStep.dataArrives "C1" "T1" "___CLAUDE_DONE___\n",
            TMStep.send "T1" "m9" none]).resolutions := by
  have h := claim5_interrupt_clears_and_drops exBusySt "C1" "T1"
  refine ⟨by simpa using h.1 ⟨"T1", "C1"⟩ rfl, h.2.1, h.2.2.1, ?_⟩
  intro b
  exact h.2.2.2 [⟨"m1", some "tokA", 0⟩] rfl ⟨"m1", some "tokA", 0⟩
    (List.mem_singleton.mpr rfl) (by decide) (by simp [exBusySt])
    (by
      intro ch' q' hq' m' hm' hpid
      by_cases hcc : ch' = "C1"
      · exact hcc
      · rw [show exBusySt.messageQueues = [("C1", [⟨"m1", some "tokA", 0⟩])] from rfl,
          alookup, if_neg (fun hh : "C1" = ch' => hcc hh.symm), alookup] at hq'
        cases hq')
    [TMStep.dataArrives "C1" "T1" "___CLAUDE_DONE___\n", TMStep.send "T1" "m9" none] b

/-- C10: when the channel's terminal is gone at drain time,
`processQueue` deletes the entire queue without dispatching anything
(no write, no resolution), and the deferred promises of the dropped
commands are never resolved — neither as success nor failure — over any
continuation of the system, so their callers wait forever. -/
theorem claim10_terminal_gone_queue_dropped :
    ∀ (st : TMState) (ch : String) (m : QueuedMessage) (rest : List QueuedMessage),
      alookup ch st.messageQueues = some (m :: rest) →
      getTerminalByChannelId st ch = none →
        alookup ch (processQueue st ch).messageQueues = none ∧
        (processQueue st ch).writes = st.writes ∧
        (processQueue st ch).resolutions = st.resolutions ∧
        (∀ m', m' ∈ m :: rest → m'.promiseId < st.nextPromiseId →
          (∀ b : Bool, (m'.promiseId, b) ∉ st.resolutions) →
          (∀ ch' q', alookup ch' st.messageQueues = some q' →
            ∀ m'' ∈ q', m''.promiseId = m'.promiseId → ch' = ch) →
          ∀ (steps : List TMStep) (b : Bool),
            (m'.promiseId, b) ∉ (runSteps (processQueue st ch) steps).resolutions) := by
  intro st ch m rest hq hterm
  rw [processQueue_no_terminal st ch m rest hq hterm]
  refine ⟨alookup_aerase_self ch _, rfl, rfl, ?_⟩
  intro m' hm' hlt hunres huniq steps b hb
  have hfree : promiseFree m'.promiseId
      { st with messageQueues := aerase ch st.messageQueues } := by
    refine ⟨hlt, ?_, hunres⟩
    intro ch' q' hq' m'' hm''
    have hq'' : alookup ch' (aerase ch st.messageQueues) = some q' := hq'
    by_cases hcc : ch' = ch
    · subst hcc
      rw [alookup_aerase_self] at hq''
      cases hq''
    · rw [alookup_aerase_ne ch ch' _ hcc] at hq''
      intro hpid
      exact hcc (huniq ch' q' hq'' m'' hm'' hpid)
  exact (promiseFree_runSteps m'.promiseId _ steps hfree).2.2 b hb

/-- A concrete state like `exBusySt` whose terminal map is empty (the
pty exited), with the queued message still present. -/
def exGoneSt : TMState :=
  { terminals := []
    outputBuffers := []
    mcpConfigs := [("C1", "cfg")]
    sessionIds := []
    busyChannels := ["C1"]
    messageQueues := [("C1", [⟨"m1", some "tokA", 0⟩])]
    awaitingSessionId := []
    latestUsageStats := []
    latestResultText := []
    channelModels := []
    pendingPrompts := []
    envClaudeModel := none
    appDirectory := ""
    savedSessionIds := []
    writes := []
    notifications := []
    resolutions := []
    nextPromiseId := 1 }

/-- Witness for C10: draining channel `C1` with no terminal deletes the
queue and the dropped promise `0` is never resolved over a
continuation. -/
theorem claim10_witness :
    alookup "C1" (processQueue exGoneSt "C1").messageQueues = none ∧
    (processQueue exGoneSt "C1").writes = [] ∧
    (processQueue exGoneSt "C1").resolutions = [] ∧
    ∀ b : Bool,
      (0, b) ∉
        (runSteps (processQueue exGoneSt "C1")
          [TMStep.spawn "C1" "T2", TMStep.send "T2" "m9" none]).resolutions := by
  have h := claim10_terminal_gone_queue_dropped exGoneSt "C1"
    ⟨"m1", some "tokA", 0⟩ [] rfl rfl
  refine ⟨h.1, h.2.1, h.2.2.1, ?_⟩
  intro b
  exact h.2.2.2 ⟨"m1", some "tokA", 0⟩ (List.mem_singleton.mpr rfl) (by decide)
    (by simp [exGoneSt])
    (by
      intro ch' q' hq' m'' hm'' hpid
      by_cases hcc : ch' = "C1"
      · exact hcc
      · rw [show exGoneSt.messageQueues = [("C1", [⟨"m1", some "tokA", 0⟩])] from rfl,
          alookup, if_neg (fun hh : "C1" = ch' => hcc hh.symm), alookup] at hq'
        cases hq')
    [TMStep.spawn "C1" "T2", TMStep.send "T2" "m9" none] b

/-! ### C6: resetting a conversation -/

/-- C6: `resetConversation` clears the channel's resume id, its
awaiting-capture state, its busy flag and its whole queue in one
operation, and persists the cleared map; the next command dispatched on
the channel is built by the new-conversation branch — the command line
shape without any resume flag — and arms the awaiting-resume-id capture
state. -/
theorem claim6_reset_clears_next_new_conversation :
    (∀ (st : TMState) (ch : String),
      alookup ch (resetConversation st ch).sessionIds = none ∧
      ch ∉ (resetConversation st ch).awaitingSessionId ∧
      ch ∉ (resetConversation st ch).busyChannels ∧
      alookup ch (resetConversation st ch).messageQueues = none ∧
      (resetConversation st ch).savedSessionIds = (resetConversation st ch).sessionIds) ∧
    (∀ (st : TMState) (ch tid input : String) (tok : Option String)
        (term : TerminalInstance) (mcp : String),
      alookup tid st.terminals = some term →
      term.channelId = ch →
      truthyStr (alookup ch st.mcpConfigs) = some mcp →
        (sendInputNow (resetConversation st ch) tid input tok).2 = true ∧
        (sendInputNow (resetConversation st ch) tid input tok).1.writes =
          st.writes ++
            [(tid, claudeCmdNew (tokenPart tok) (String.mk (escapeInput input.data))
              (modelFor st ch) mcp ++ "\r")] ∧
        ch ∈ (sendInputNow (resetConversation st ch) tid input tok).1.awaitingSessionId) := by
  constructor
  · intro st ch
    refine ⟨?_, ?_, ?_, ?_, rfl⟩
    · exact alookup_aerase_self ch st.sessionIds
    · exact not_mem_setErase_self ch st.awaitingSessionId
    · exact not_mem_setErase_self ch st.busyChannels
    · exact alookup_aerase_self ch st.messageQueues
  · intro st ch tid input tok term mcp hterm hch hmcp
    have hterm' : alookup tid (resetConversation st ch).terminals = some term := hterm
    have hmcp' : truthyStr (alookup term.channelId
        (resetConversation st ch).mcpConfigs) = some mcp := by
      rw [hch]
      exact hmcp
    have hd := sendInputNow_dispatch (resetConversation st ch) tid input tok term mcp
      hterm' hmcp'
    have hsid : truthyStr (alookup term.channelId
        (resetConversation st ch).sessionIds) = none := by
      rw [hch]
      show truthyStr (alookup ch (aerase ch st.sessionIds)) = none
      rw [alookup_aerase_self]
      rfl
    have harm := sendInputNow_arms_awaiting (resetConversation st ch) tid input tok
      term mcp hterm' hmcp' hsid
    refine ⟨hd.1, ?_, ?_⟩
    · rw [hd.2.1]
      have hbuilt : builtCmd (resetConversation st ch) term.channelId input tok =
          claudeCmdNew (tokenPart tok) (String.mk (escapeInput input.data))
            (modelFor st ch) mcp := by
        unfold builtCmd
        simp only [hsid, hmcp']
        rw [hch]
        rfl
      rw [hbuilt]
      rfl
    · rw [hch] at harm
      exact harm

/-- Witness for C6 on the concrete busy state. -/
theorem claim6_witness :
    alookup "C1" (resetConversation exBusySt "C1").sessionIds = none ∧
    (sendInputNow (resetConversation exBusySt "C1") "T1" "hi" none).2 = true ∧
    (sendInputNow (resetConversation exBusySt "C1") "T1" "hi" none).1.writes =
      exBusySt.writes ++
        [("T1", claudeCmdNew (tokenPart none) (String.mk (escapeInput "hi".data))
          (modelFor exBusySt "C1") "cfg" ++ "\r")] ∧
    "C1" ∈ (sendInputNow (resetConversation exBusySt "C1") "T1" "hi" none).1.awaitingSessionId := by
  have h1 := claim6_reset_clears_next_new_conversation.1 exBusySt "C1"
  have h2 := claim6_reset_clears_next_new_conversation.2 exBusySt "C1" "T1" "hi" none
    ⟨"T1", "C1"⟩ "cfg" rfl rfl rfl
  exact ⟨h1.1, h2.1, h2.2.1, h2.2.2⟩


/-! ### C2: result extraction and chunk boundaries -/

theorem processQueue_latestResultText (st : TMState) (ch : String) :
    (processQueue st ch).latestResultText = st.latestResultText := by
  unfold processQueue
  split
  · rfl
  · rfl
  · split
    · rfl
    · exact (sendInputNow_pres _ _ _ _).2.2.2.2.1

theorem processQueue_latestUsageStats (st : TMState) (ch : String) :
    (processQueue st ch).latestUsageStats = st.latestUsageStats := by
  unfold processQueue
  split
  · rfl
  · rfl
  · split
    · rfl
    · exact (sendInputNow_pres _ _ _ _).2.2.2.2.2.1

theorem onDataScan_results_none (st : TMState) (ch tid data : String)
    (h : resultSpanOf (stripAnsi data.data) = none) :
    (onDataScan st ch tid data).latestResultText = st.latestResultText ∧
    (onDataScan st ch tid data).latestUsageStats = st.latestUsageStats := by
  unfold onDataScan
  obtain ⟨b, hb⟩ := pushOutput_frame st tid data
  rw [hb]
  obtain ⟨si, aw, sv, hc⟩ := captureSessionId_frame _ ch (stripAnsi data.data)
  rw [hc]
  rw [recordResult_none _ ch _ h]
  obtain ⟨p, n, hp⟩ := detectPrompts_frame _ ch (stripAnsi data.data) tid
  rw [hp]
  exact ⟨rfl, rfl⟩

/-- A chunk in which the handler finds no balanced result span records
nothing for any channel. -/
theorem onData_results_none (st : TMState) (ch tid data : String)
    (h : resultSpanOf (stripAnsi data.data) = none) :
    (onData st ch tid data).latestResultText = st.latestResultText ∧
    (onData st ch tid data).latestUsageStats = st.latestUsageStats := by
  have hscan := onDataScan_results_none st ch tid data h
  unfold onData
  by_cases hb : ch ∈ (onDataScan st ch tid data).busyChannels
  · rw [if_pos hb]
    by_cases hs : hasSentinelLine (stripAnsi data.data) = true
    · rw [if_pos hs]
      unfold onSentinel
      rw [processQueue_latestResultText, processQueue_latestUsageStats]
      exact hscan
    · rw [if_neg hs]
      exact hscan
  · rw [if_neg hb]
    exact hscan

theorem recordResult_some (st : TMState) (ch : String) (clean span : List Char)
    (j r : Json) (hspan : resultSpanOf clean = some span)
    (hj : jsonParse span = some j) (hr : jget j "result" = some r)
    (ht : jsTruthy r = true) :
    alookup ch (recordResult st ch clean).latestResultText = some r := by
  unfold recordResult
  simp only [hspan, hj, hr]
  rw [if_pos ht]
  exact alookup_ainsert_self ch r _

/-- A concrete idle state with one terminal `T1` on channel `C1` and no
recorded results. -/
def exC2St : TMState :=
  { terminals := [("T1", ⟨"T1", "C1"⟩)]
    outputBuffers := [("T1", [])]
    mcpConfigs := [("C1", "cfg")]
    sessionIds := []
    busyChannels := []
    messageQueues := []
    awaitingSessionId := []
    latestUsageStats := []
    latestResultText := []
    channelModels := []
    pendingPrompts := []
    envClaudeModel := none
    appDirectory := ""
    savedSessionIds := []
    writes := []
    notifications := []
    resolutions := []
    nextPromiseId := 0 }

/-- C2 counterexample: a structured result object split across two
chunks is never recorded by the channel-output handler, even though
brace depth returns to zero (and the JSON parses) over the
concatenation of the two chunks. -/
theorem claim2_counterexample :
    resultSpanOf (("\x7b\"type\":\"result\"" : String).data ++
        (",\"result\":\"ok\"\x7d" : String).data) =
      some (("\x7b\"type\":\"result\"" : String).data ++
        (",\"result\":\"ok\"\x7d" : String).data) ∧
    (jsonParse (("\x7b\"type\":\"result\"" : String).data ++
        (",\"result\":\"ok\"\x7d" : String).data)).isSome = true ∧
    resultSpanOf ("\x7b\"type\":\"result\"" : String).data = none ∧
    alookup "C1"
      (onData (onData exC2St "C1" "T1" "\x7b\"type\":\"result\"")
        "C1" "T1" ",\"result\":\"ok\"\x7d").latestResultText = none ∧
    alookup "C1"
      (onData (onData exC2St "C1" "T1" "\x7b\"type\":\"result\"")
        "C1" "T1" ",\"result\":\"ok\"\x7d").latestUsageStats = none := by
  have h1 := onData_results_none exC2St "C1" "T1" "\x7b\"type\":\"result\""
    (by decide)
  have h2 := onData_results_none (onData exC2St "C1" "T1" "\x7b\"type\":\"result\"")
    "C1" "T1" ",\"result\":\"ok\"\x7d" (by decide)
  refine ⟨by decide, by decide, by decide, ?_, ?_⟩
  · rw [h2.1, h1.1]
    rfl
  · rw [h2.2, h1.2]
    rfl

/-- C2 (amended): the handler performs brace-depth balancing over the
current chunk only — a chunk in which no balanced result span is found
leaves the recorded result and usage for every channel unchanged (so an
object split across chunks is never recorded), and a chunk containing
the entire balanced object parses it and records its `result` field for
the channel. -/
theorem claim2_amended_single_chunk_balancing :
    (∀ (st : TMState) (ch tid data : String),
      resultSpanOf (stripAnsi data.data) = none →
        (onData st ch tid data).latestResultText = st.latestResultText ∧
        (onData st ch tid data).latestUsageStats = st.latestUsageStats) ∧
    (∀ (st : TMState) (ch tid data : String) (span : List Char) (j r : Json),
      resultSpanOf (stripAnsi data.data) = some span →
      jsonParse span = some j →
      jget j "result" = some r →
      jsTruthy r = true →
        alookup ch (onData st ch tid data).latestResultText = some r) := by
  constructor
  · exact onData_results_none
  · intro st ch tid data span j r hspan hj hr ht
    unfold onData onDataScan
    have hrec := recordResult_some
      (captureSessionId (pushOutput st tid data) ch (stripAnsi data.data)) ch
      (stripAnsi data.data) span j r hspan hj hr ht
    obtain ⟨p, n, hp⟩ := detectPrompts_frame
      (recordResult (captureSessionId (pushOutput st tid data) ch (stripAnsi data.data))
        ch (stripAnsi data.data)) ch (stripAnsi data.data) tid
    rw [hp]
    by_cases hb : ch ∈
        (recordResult (captureSessionId (pushOutput st tid data) ch
          (stripAnsi data.data)) ch (stripAnsi data.data)).busyChannels
    · rw [if_pos hb]
      by_cases hs : hasSentinelLine (stripAnsi data.data) = true
      · rw [if_pos hs]
        unfold onSentinel
        rw [processQueue_latestResultText]
        exact hrec
      · rw [if_neg hs]
        exact hrec
    · rw [if_neg hb]
      exact hrec

set_option maxHeartbeats 1000000 in
/-- Witness for the amended C2: a whole result object arriving in one
chunk is recorded for the channel. -/
theorem claim2_witness :
    alookup "C1"
      (onData exC2St "C1" "T1"
        ("\x7b\"type\":\"result\"" ++ ",\"result\":\"ok\"\x7d")).latestResultText =
      some (Json.jstr "ok") :=
  claim2_amended_single_chunk_balancing.2 exC2St "C1" "T1"
    ("\x7b\"type\":\"result\"" ++ ",\"result\":\"ok\"\x7d")
    (("\x7b\"type\":\"result\"" ++ ",\"result\":\"ok\"\x7d" : String).data)
    (Json.jobj [("type", Json.jstr "result"), ("result", Json.jstr "ok")])
    (Json.jstr "ok") (by decide) rfl rfl rfl

/-! ### C8: binary prompt detection, exactly once -/

/-- The concrete prompt output of the claim. -/
def promptOut : String := "Proceed?\n(y/n)"

/-- C8: on a channel with no pending prompt, scanning
`"Proceed?\n(y/n)"` records a binary pending prompt with options
`[Yes, No]` and notifies the prompt callback exactly once; while a
pending prompt exists, prompt detection on any further output of that
channel is suppressed entirely, so a second scan produces no new prompt
and no new notification. -/
theorem claim8_binary_prompt_once :
    (∀ (st : TMState) (ch tid : String),
      alookup ch st.pendingPrompts = none →
        detectPrompts st ch promptOut.data tid =
          { st with
              pendingPrompts := ainsert ch ⟨tid, ["Yes", "No"]⟩ st.pendingPrompts,
              notifications := st.notifications ++
                [Notification.promptDetected ch
                  ⟨PromptType.binary, "Proceed?", ["Yes", "No"], promptOut⟩] }) ∧
    (∀ (st : TMState) (ch : String) (out : List Char) (tid : String),
      (alookup ch st.pendingPrompts).isSome →
        detectPrompts st ch out tid = st) ∧
    (∀ (st : TMState) (ch tid : String),
      alookup ch st.pendingPrompts = none →
        detectPrompts (detectPrompts st ch promptOut.data tid) ch promptOut.data tid =
          detectPrompts st ch promptOut.data tid) := by
  have part1 : ∀ (st : TMState) (ch tid : String),
      alookup ch st.pendingPrompts = none →
        detectPrompts st ch promptOut.data tid =
          { st with
              pendingPrompts := ainsert ch ⟨tid, ["Yes", "No"]⟩ st.pendingPrompts,
              notifications := st.notifications ++
                [Notification.promptDetected ch
                  ⟨PromptType.binary, "Proceed?", ["Yes", "No"], promptOut⟩] } := by
    intro st ch tid h
    unfold detectPrompts
    rw [h]
    rw [if_neg (by simp)]
    have hm : findMenu promptOut.data = none := by decide
    simp only [hm]
    unfold detectBinary
    have hb : findBinary promptOut.data =
        some (promptOut.data, ("Proceed?" : String).data) := by decide
    simp only [hb]
    unfold recordPrompt
    rfl
  have part2 : ∀ (st : TMState) (ch : String) (out : List Char) (tid : String),
      (alookup ch st.pendingPrompts).isSome →
        detectPrompts st ch out tid = st := by
    intro st ch out tid h
    unfold detectPrompts
    rw [if_pos h]
  refine ⟨part1, part2, ?_⟩
  intro st ch tid h
  rw [part1 st ch tid h]
  apply part2
  show (alookup ch (ainsert ch ⟨tid, ["Yes", "No"]⟩ st.pendingPrompts)).isSome = true
  rw [alookup_ainsert_self]
  rfl

/-- Witness for C8 on the concrete idle state. -/
theorem claim8_witness :
    detectPrompts exC2St "C1" promptOut.data "T1" =
      { exC2St with
          pendingPrompts := [("C1", ⟨"T1", ["Yes", "No"]⟩)]
          notifications :=
            [Notification.promptDetected "C1"
              ⟨PromptType.binary, "Proceed?", ["Yes", "No"], promptOut⟩] } ∧
    detectPrompts (detectPrompts exC2St "C1" promptOut.data "T1") "C1"
        promptOut.data "T1" =
      detectPrompts exC2St "C1" promptOut.data "T1" := by
  have h1 := claim8_binary_prompt_once.1 exC2St "C1" "T1" rfl
  have h3 := claim8_binary_prompt_once.2.2 exC2St "C1" "T1" rfl
  exact ⟨h1.trans rfl, h3⟩
